import Mathlib

/-!
Verification development for the native-plant-catalogue enrichment pipeline.

The Python sources are shallowly embedded: JSON values become an inductive
`Json` type (numbers are modelled as integers; the float arithmetic in the
phenology adapter is modelled by exact fractions, which agree with IEEE
doubles on all inputs appearing here), Python dictionaries become
insertion-ordered
association lists, and Python exceptions become an `Except PyErr` monad.  An
adapter receives the result of its network call as an explicit argument:
`none` models the fetcher returning `None`, `some none` models an HTTP-200
response whose body is not valid JSON (`r.json()` raises), and `some (some j)`
models a response whose body parses to `j`.
-/

namespace PlantCat

/-- JSON values as produced by `response.json()`. -/
inductive Json where
  | null
  | bool (b : Bool)
  | num (n : Int)
  | str (s : String)
  | arr (xs : List Json)
  | obj (fields : List (String × Json))
deriving Repr, BEq

/-- Parse result of an HTTP-200 body: `none` when `r.json()` raises. -/
def NetBody := Option Json

/-- Result handed to an adapter by `safe_get`: `none` when the fetcher
returned `None`. -/
def FetchRes := Option NetBody

/-- Python exception kinds distinguished by the embedded code. -/
inductive PyErr where
  | jsonDecodeError
  | attributeError
  | typeError
  | keyError
  | valueError
  | indexError
deriving Repr, DecidableEq

/-- First-match lookup in an insertion-ordered dictionary. -/
def jLookup : List (String × Json) → String → Option Json
  | [], _ => none
  | (k', v) :: rest, k => if k' = k then some v else jLookup rest k

/-- Python `d[k] = v` on an insertion-ordered dictionary: replaces the value
in place when the key is present, appends otherwise. -/
def dictSet : List (String × Json) → String → Json → List (String × Json)
  | [], k, v => [(k, v)]
  | (k', v') :: rest, k, v =>
    if k' = k then (k, v) :: rest else (k', v') :: dictSet rest k v

/-- A flat property map accumulated by an adapter (a Python dict). -/
def PropMap := List (String × Json)

/-- Python truthiness of a JSON value. -/
def truthy : Json → Bool
  | .null => false
  | .bool b => b
  | .num n => n != 0
  | .str s => s ≠ ""
  | .arr xs => ¬ xs.isEmpty
  | .obj fs => ¬ fs.isEmpty

/-! Character-level string primitives.  The built-in position-based
`String` functions are replaced by structurally recursive versions over
`String.data`, with the same meaning on the ASCII data handled here. -/

/-- The whitespace class shared by Python `str.strip` / `str.split` and the
regex `\s` (ASCII portion). -/
def isPyWs (c : Char) : Bool :=
  c = ' ' ∨ c = '\t' ∨ c = '\n' ∨ c = '\x0d' ∨ c = '\x0c' ∨ c = '\x0b'

/-- `str.lower()`. -/
def strLower (s : String) : String := String.mk (s.data.map Char.toLower)

/-- `str.strip()`. -/
def strTrim (s : String) : String :=
  String.mk ((s.data.dropWhile isPyWs).reverse.dropWhile isPyWs |>.reverse)

/-- `s[n:]`. -/
def strDrop (s : String) (n : Nat) : String := String.mk (s.data.drop n)

/-- Split on a single-character separator (`str.split(sep)` for the
one-character separators used here); separators are kept as boundaries, so
empty pieces appear between adjacent separators. -/
def splitOnChar (sep : Char) (l : List Char) : List (List Char) :=
  match l with
  | [] => [[]]
  | c :: rest =>
    let r := splitOnChar sep rest
    if c = sep then [] :: r
    else
      match r with
      | [] => [[c]]
      | p :: ps => (c :: p) :: ps

/-- `str.split()` with no argument: maximal non-whitespace runs.  The first
argument accumulates the current run in reverse. -/
def splitWsAux (acc : List Char) : List Char → List (List Char)
  | [] => if acc = [] then [] else [acc.reverse]
  | c :: rest =>
    if isPyWs c then
      if acc = [] then splitWsAux [] rest else acc.reverse :: splitWsAux [] rest
    else splitWsAux (c :: acc) rest

/-- `str.split()` with no argument. -/
def splitWsRuns (l : List Char) : List (List Char) := splitWsAux [] l

/-- Exact rational arithmetic standing in for Python float: a numerator and
a (positive) denominator, compared by cross multiplication.  On the integer
month counts handled by the phenology adapter this agrees exactly with the
IEEE double arithmetic of `sum(...) / len(...)` and `* 0.5`, both of which
are exact for the dyadic values involved in the comparisons below. -/
def PyRat := Int × Nat

/-- `a / n` as an exact fraction. -/
def pyDiv (a : Int) (n : Nat) : PyRat := (a, n)

/-- `r * 0.5`. -/
def pyHalf (r : PyRat) : PyRat := (r.1, r.2 * 2)

/-- `r < c` for an integer `c` (the test `c > avg * 0.5`); valid because
all denominators built here are positive. -/
def pyLtInt (r : PyRat) (c : Int) : Bool := r.1 < c * (r.2 : Int)

/-- Value of a list of decimal digits. -/
def digitsToNat (l : List Char) : Nat :=
  l.foldl (fun n c => n * 10 + (c.toNat - 48)) 0

/-- Code-point lexicographic `≤` on strings (Python `<`/`sorted` and the
Cypher `ORDER BY` comparison). -/
def charListLe : List Char → List Char → Bool
  | [], _ => true
  | _ :: _, [] => false
  | a :: as, b :: bs =>
    if a.toNat < b.toNat then true
    else if b.toNat < a.toNat then false
    else charListLe as bs

/-- `≤` on strings by code point. -/
def strLe (s t : String) : Bool := charListLe s.data t.data

/-- `str.replace(pat, rep)` for the non-empty pattern `p :: ps`, replacing
all occurrences left to right.  The fuel argument (initially the length of
the subject) makes the recursion structural; every step consumes at least
one character, so the fuel never runs out. -/
def strReplaceAux (p : Char) (ps rep : List Char) : Nat → List Char → List Char
  | 0, l => l
  | _ + 1, [] => []
  | fuel + 1, c :: rest =>
    if (p :: ps).isPrefixOf (c :: rest) then
      rep ++ strReplaceAux p ps rep fuel (rest.drop ps.length)
    else c :: strReplaceAux p ps rep fuel rest

/-- `str.replace(pat, rep)`; the patterns used here are non-empty. -/
def strReplace (s pat rep : String) : String :=
  match pat.data with
  | [] => s
  | p :: ps => String.mk (strReplaceAux p ps rep.data s.data.length s.data)

/-- `data.get(k)`: `AttributeError` when the receiver is not a dict. -/
def Json.get? : Json → String → Except PyErr (Option Json)
  | .obj fs, k => .ok (jLookup fs k)
  | _, _ => .error .attributeError

/-- `x or d` for `x` an optional JSON value: the default replaces a missing
or falsy value. -/
def jOrD (v : Option Json) (d : Json) : Json :=
  match v with
  | some x => if truthy x then x else d
  | none => d

/-- `data.get(k, d)`: the default is used only when the key is absent. -/
def jGetD (v : Option Json) (d : Json) : Json :=
  match v with
  | some x => x
  | none => d

/-- Python `x == s` for a string literal `s`: only equal strings compare
equal; values of other types compare unequal, never raising. -/
def isStrEq (o : Option Json) (s : String) : Bool :=
  match o with
  | some (.str t) => t = s
  | _ => false

/-- `.lower()`: `AttributeError` on non-strings. -/
def pyLower : Json → Except PyErr String
  | .str s => .ok (strLower s)
  | _ => .error .attributeError

/-- `.strip()`: `AttributeError` on non-strings. -/
def pyStrip : Json → Except PyErr String
  | .str s => .ok (strTrim s)
  | _ => .error .attributeError

/-- `.startswith(p)`: `AttributeError` on non-strings. -/
def pyStartsWith : Json → String → Except PyErr Bool
  | .str s, p => .ok (p.data.isPrefixOf s.data)
  | _, _ => .error .attributeError

/-- `len(x)`: defined for strings, lists and dicts, `TypeError` otherwise. -/
def pyLen : Json → Except PyErr Nat
  | .str s => .ok s.length
  | .arr xs => .ok xs.length
  | .obj fs => .ok fs.length
  | _ => .error .typeError

/-- `x[:n]` slicing on strings and lists, `TypeError` otherwise. -/
def pySliceTo : Json → Nat → Except PyErr Json
  | .str s, n => .ok (.str (String.mk (s.toList.take n)))
  | .arr xs, n => .ok (.arr (xs.take n))
  | _, _ => .error .typeError

/-- `x[0]`: first character of a string (as a one-character string) or first
element of a list; `IndexError` when empty, `KeyError` on a dict (`0` is not
a key of the dicts appearing here), `TypeError` otherwise. -/
def pySubscript0 : Json → Except PyErr Json
  | .str s =>
    match s.toList with
    | c :: _ => .ok (.str (String.mk [c]))
    | [] => .error .indexError
  | .arr (x :: _) => .ok x
  | .arr [] => .error .indexError
  | .obj _ => .error .keyError
  | _ => .error .typeError

/-- `x[k]` for a string key: dict lookup (`KeyError` when absent),
`TypeError` on every other receiver. -/
def pySubscrKey : Json → String → Except PyErr Json
  | .obj fs, k =>
    match jLookup fs k with
    | some v => .ok v
    | none => .error .keyError
  | _, _ => .error .typeError

/-- Iteration `for x in v`: list elements, characters of a string, or keys
of a dict; `TypeError` otherwise. -/
def pyIter : Json → Except PyErr (List Json)
  | .arr xs => .ok xs
  | .str s => .ok (s.toList.map fun c => .str (String.mk [c]))
  | .obj fs => .ok (fs.map fun kv => .str kv.1)
  | _ => .error .typeError

/-- `sep.join(v)`: joins a list of strings, the characters of a string, or
the keys of a dict; `TypeError` when an element is not a string. -/
def pyJoin (sep : String) : Json → Except PyErr String
  | .arr xs => do
    let parts ← xs.mapM fun x =>
      match x with
      | .str s => Except.ok s
      | _ => Except.error PyErr.typeError
    .ok (String.intercalate sep parts)
  | .str s => .ok (String.intercalate sep (s.toList.map fun c => String.mk [c]))
  | .obj fs => .ok (String.intercalate sep (fs.map fun kv => kv.1))
  | _ => .error .typeError

/-- Escape backslashes and the quote character, as Python `repr` does for
printable strings. -/
def pyEscape (q : Char) (s : String) : String :=
  String.mk (s.toList.foldr
    (fun c acc => if c = '\\' ∨ c = q then '\\' :: c :: acc else c :: acc) [])

/-- Python `repr` of a string: single-quoted unless the string contains a
single quote and no double quote. -/
def pyQuote (s : String) : String :=
  if s.data.contains '\'' ∧ ¬ s.data.contains '"' then
    "\"" ++ pyEscape '"' s ++ "\""
  else
    "'" ++ pyEscape '\'' s ++ "'"

mutual

/-- Python `repr` of a JSON value. -/
def pyRepr : Json → String
  | .null => "None"
  | .bool b => if b then "True" else "False"
  | .num n => toString n
  | .str s => pyQuote s
  | .arr xs => "[" ++ String.intercalate ", " (pyReprList xs) ++ "]"
  | .obj fs => "\x7b" ++ String.intercalate ", " (pyReprObj fs) ++ "\x7d"

def pyReprList : List Json → List String
  | [] => []
  | x :: rest => pyRepr x :: pyReprList rest

def pyReprObj : List (String × Json) → List String
  | [] => []
  | (k, v) :: rest => (pyQuote k ++ ": " ++ pyRepr v) :: pyReprObj rest

end

/-- Python `str` of a JSON value. -/
def pyStr : Json → String
  | .str s => s
  | v => pyRepr v

/-- Python `int(x)` applied to a string: strip, optional sign, digit groups
optionally separated by single underscores; `ValueError` otherwise. -/
def pyIntOfStr (s : String) : Except PyErr Int :=
  let t := strTrim s
  let (neg, rest) :=
    match t.data with
    | '-' :: cs => (true, cs)
    | '+' :: cs => (false, cs)
    | cs => (false, cs)
  let groups := splitOnChar '_' rest
  if groups.all (fun g => g ≠ [] ∧ g.all Char.isDigit) ∧ rest ≠ [] then
    let mag := digitsToNat (rest.filter (· ≠ '_'))
    .ok (if neg then -(mag : Int) else (mag : Int))
  else
    .error .valueError

/-- Python `int(x)`: integers pass through, booleans coerce, strings parse
(`ValueError` on bad form), everything else raises `TypeError`. -/
def pyInt : Json → Except PyErr Int
  | .num n => .ok n
  | .bool b => .ok (if b then 1 else 0)
  | .str s => pyIntOfStr s
  | _ => .error .typeError

/-- Numeric value of a JSON value in an arithmetic position (`-x`, `sum`);
booleans count as integers, everything else raises `TypeError`. -/
def pyNum : Json → Except PyErr Int
  | .num n => .ok n
  | .bool b => .ok (if b then 1 else 0)
  | _ => .error .typeError

/-- Python `str.split()` with no argument: split on whitespace runs,
discarding empty pieces. -/
def pySplitWs (s : String) : List String :=
  (splitWsRuns s.data).map String.mk

/-! ### The height regex of `fetch_wikipedia_summary`

`re.search(r'(\d+[\-–]\d+|\d+)\s*m\s*(?:tall|high|in height)', extract,
re.IGNORECASE)`.  For this fixed pattern, backtracking never changes the
outcome: a maximal digit run followed by anything but a dash-digit sequence
forces the second alternative, and maximal whitespace runs are forced by the
following literal.  `searchHeight` scans start positions left to right and
returns the matched span (`group(0)`) of the leftmost match. -/

/-- Case-insensitive literal match at the front of `l`; returns the span
consumed and the rest. -/
def matchLitCI : List Char → List Char → Option (List Char × List Char)
  | [], l => some ([], l)
  | _ :: _, [] => none
  | p :: ps, c :: cs =>
    if c.toLower = p.toLower then
      match matchLitCI ps cs with
      | some (sp, rest) => some (c :: sp, rest)
      | none => none
    else none

/-- Try to match the height pattern at the start of `l`, returning the
matched span. -/
def matchHeightAt (l : List Char) : Option (List Char) :=
  let ds := l.takeWhile Char.isDigit
  let rest := l.drop ds.length
  if ds.isEmpty then none
  else
    let numAndRest : List Char × List Char :=
      match rest with
      | c :: r2 =>
        if c = '-' ∨ c = '–' then
          let ds2 := r2.takeWhile Char.isDigit
          if ds2.isEmpty then (ds, rest)
          else (ds ++ c :: ds2, r2.drop ds2.length)
        else (ds, rest)
      | [] => (ds, rest)
    let numPart := numAndRest.1
    let restN := numAndRest.2
    let ws1 := restN.takeWhile isPyWs
    match restN.drop ws1.length with
    | m :: r5 =>
      if m.toLower = 'm' then
        let ws2 := r5.takeWhile isPyWs
        let r6 := r5.drop ws2.length
        match matchLitCI "tall".toList r6 with
        | some (sp, _) => some (numPart ++ ws1 ++ m :: ws2 ++ sp)
        | none =>
          match matchLitCI "high".toList r6 with
          | some (sp, _) => some (numPart ++ ws1 ++ m :: ws2 ++ sp)
          | none =>
            match matchLitCI "in height".toList r6 with
            | some (sp, _) => some (numPart ++ ws1 ++ m :: ws2 ++ sp)
            | none => none
      else none
    | [] => none

/-- Leftmost match of the height pattern in `s` (`re.search`), as the
matched span `group(0)`. -/
def searchHeight (s : String) : Option String :=
  go s.toList
where
  go : List Char → Option String
    | [] => none
    | c :: cs =>
      match matchHeightAt (c :: cs) with
      | some sp => some (String.mk sp)
      | none => go cs

/-! ### Source adapters from `scraper.py` -/

/-- The rank-dispatch chain inside the `Ancestors` loop of
`fetch_usda_profile`. -/
def rankAssign (props : PropMap) (rank : String) (sym : Json) : PropMap :=
  if rank = "kingdom" then dictSet props "kingdom" sym
  else if rank = "subkingdom" then dictSet props "subkingdom" sym
  else if rank = "division" then dictSet props "division" sym
  else if rank = "class" then dictSet props "tax_class" sym
  else if rank = "order" then dictSet props "tax_order" sym
  else if rank = "family" then dictSet props "family" sym
  else if rank = "genus" then dictSet props "genus" sym
  else props

/-- The `for anc in ancestors` loop of `fetch_usda_profile`. -/
def usdaAncLoop : List Json → PropMap → Except PyErr PropMap
  | [], props => .ok props
  | anc :: rest, props => do
    let rank ← pyLower (jOrD (← anc.get? "Rank") (.str ""))
    let sym := jOrD (← anc.get? "Symbol") (.str "")
    let _name := jOrD (← anc.get? "CommonName") (.str "")
    usdaAncLoop rest (rankAssign props rank sym)

/-- The growth-habits and durations extraction of `fetch_usda_profile`. -/
def usdaListProps (data : Json) : Except PyErr PropMap := do
  let habits := jOrD (← data.get? "GrowthHabits") (.arr [])
  let props1 ←
    if truthy habits then do
      let joined ← pyJoin ", " habits
      let h0 ← pySubscript0 habits
      pure (dictSet (dictSet [] "growth_habits" (.str joined))
        "growth_habit_primary" h0)
    else pure []
  let durations := jOrD (← data.get? "Durations") (.arr [])
  if truthy durations then do
    let joined ← pyJoin ", " durations
    pure (dictSet props1 "duration" (.str joined))
  else pure props1

/-- The `Group` / `Rank` / `ProfileImageFilename` extraction of
`fetch_usda_profile`. -/
def usdaScalarProps (data : Json) (props2 : PropMap) : Except PyErr PropMap := do
  let g ← data.get? "Group"
  let props3 :=
    match g with
    | some jv => if truthy jv then dictSet props2 "plant_group" jv else props2
    | none => props2
  let rk ← data.get? "Rank"
  let props4 :=
    match rk with
    | some jv => if truthy jv then dictSet props3 "rank" jv else props3
    | none => props3
  let pif ← data.get? "ProfileImageFilename"
  match pif with
  | some jv => return (if truthy jv then dictSet props4 "usda_image_filename" jv else props4)
  | none => return props4

/-- The `Ancestors` walk of `fetch_usda_profile`. -/
def usdaAncProps (data : Json) (props5 : PropMap) : Except PyErr PropMap := do
  let ancestors := jOrD (← data.get? "Ancestors") (.arr [])
  let ancList ← pyIter ancestors
  usdaAncLoop ancList props5

/-- The three capability-flag writes of `fetch_usda_profile`. -/
def usdaFlagProps (data : Json) (props6 : PropMap) : Except PyErr PropMap := do
  let w := jGetD (← data.get? "HasWildlife") (.bool false)
  let props7 := dictSet props6 "has_wildlife_value" (.str (pyStr w))
  let p := jGetD (← data.get? "HasPollinator") (.bool false)
  let props8 := dictSet props7 "has_pollinator_value" (.str (pyStr p))
  let wd := jGetD (← data.get? "HasWetlandData") (.bool false)
  return dictSet props8 "has_wetland_data" (.str (pyStr wd))

/-- `scraper.fetch_usda_profile`, as a function of the `safe_get` result.
The `try` block covers only `r.json()` (a malformed body yields `{}`); any
later shape error propagates. -/
def fetch_usda_profile (res : FetchRes) : Except PyErr PropMap := do
  match res with
  | none => return []
  | some body =>
    match body with
    | none => return []
    | some data => do
      let props2 ← usdaListProps data
      let props5 ← usdaScalarProps data props2
      let props6 ← usdaAncProps data props5
      usdaFlagProps data props6

/-- The `for field in [...]` loop of `fetch_gbif_taxonomy`: renames `class`
and `order` with a `gbif_` prefix. -/
def gbifFieldLoop (first : Json) : List String → PropMap → Except PyErr PropMap
  | [], props => .ok props
  | f :: rest, props => do
    let v ← first.get? f
    let props' :=
      match v with
      | some jv =>
        if truthy jv then
          dictSet props (if f = "class" ∨ f = "order" then "gbif_" ++ f else f) jv
        else props
      | none => props
    gbifFieldLoop first rest props'

/-- Body of `fetch_gbif_taxonomy` inside its all-catching `try`. -/
def gbifTaxCore (body : NetBody) : Except PyErr PropMap := do
  let data ←
    match body with
    | some j => pure j
    | none => Except.error PyErr.jsonDecodeError
  let results := jOrD (← data.get? "results") (.arr [])
  if ¬ truthy results then return []
  else do
    let first ← pySubscript0 results
    let props ← gbifFieldLoop first
      ["kingdom", "phylum", "class", "order", "family", "genus", "species"] []
    let vn ← first.get? "vernacularName"
    let props' :=
      match vn with
      | some jv => if truthy jv then dictSet props "vernacular_name" jv else props
      | none => props
    return props'

/-- `scraper.fetch_gbif_taxonomy`: the whole body sits in a
`try/except Exception: return {}`, so the adapter is total. -/
def fetch_gbif_taxonomy (scientific_name : String) (res : FetchRes) : PropMap :=
  let parts := pySplitWs scientific_name
  let _query :=
    if parts.length ≥ 2 then String.intercalate " " (parts.take 2)
    else scientific_name
  match res with
  | none => []
  | some body =>
    match gbifTaxCore body with
    | .ok m => m
    | .error _ => []

/-! ### Source adapters from `enrich_characteristics.py`

These four adapters call `r.json()` with no surrounding `try`, so a
malformed HTTP-200 body raises out of the adapter. -/

/-- `r.json()` outside any `try`. -/
def jsonOf (body : NetBody) : Except PyErr Json :=
  match body with
  | some j => .ok j
  | none => .error .jsonDecodeError

/-- The response handling of `fetch_wikipedia_summary` (everything after
the page-title construction). -/
def wikiSummaryCore (res : FetchRes) : Except PyErr PropMap := do
  match res with
  | none => return []
  | some body => do
    let data ← jsonOf body
    if isStrEq (← data.get? "type") "disambiguation" then return []
    else do
      let extract := jGetD (← data.get? "extract") (.str "")
      let props1 ←
        if truthy extract then do
          let n ← pyLen extract
          if n > 50 then do
            let capped ← pySliceTo extract 1000
            pure (dictSet [] "wiki_summary" capped)
          else pure []
        else pure []
      let s ←
        match extract with
        | .str s => pure s
        | _ => Except.error PyErr.typeError
      match searchHeight s with
      | some span => return dictSet props1 "height_m" (.str span)
      | none => return props1

/-- `enrich_characteristics.fetch_wikipedia_summary`, as a function of the
scientific name and the `safe_get` result. -/
def fetch_wikipedia_summary (scientific_name : String) (res : FetchRes) :
    Except PyErr PropMap := do
  let parts := pySplitWs scientific_name
  let _query ←
    if parts.length ≥ 2 then pure (String.intercalate "_" (parts.take 2))
    else
      match parts with
      | p :: _ => pure p
      | [] => Except.error PyErr.indexError
  wikiSummaryCore res

/-- The `for desc in results` loop of `fetch_gbif_descriptions`,
accumulating the habitat and habit text lists. -/
def descLoop : List Json → List String → List String →
    Except PyErr (List String × List String)
  | [], hab, habit => .ok (hab, habit)
  | d :: rest, hab, habit => do
    let descType ← pyLower (jOrD (← d.get? "type") (.str ""))
    let text ← pyStrip (jOrD (← d.get? "description") (.str ""))
    if text = "" ∨ text.length < 5 then descLoop rest hab habit
    else if descType = "habitat" ∨ descType = "ecology" ∨ descType = "distribution" then
      descLoop rest (hab ++ [String.mk (text.toList.take 300)]) habit
    else if descType = "habit" ∨ descType = "growth form" ∨ descType = "life form" then
      descLoop rest hab (habit ++ [String.mk (text.toList.take 100)])
    else descLoop rest hab habit

/-- `enrich_characteristics.fetch_gbif_descriptions`. -/
def fetch_gbif_descriptions (res : FetchRes) : Except PyErr PropMap := do
  match res with
  | none => return []
  | some body => do
    let data ← jsonOf body
    let results := jOrD (← data.get? "results") (.arr [])
    let items ← pyIter results
    let lists ← descLoop items [] []
    let props1 :=
      match lists.1 with
      | [] => []
      | _ :: _ =>
        dictSet [] "habitat_notes" (.str (String.intercalate " | " (lists.1.take 2)))
    let props2 :=
      match lists.2 with
      | [] => props1
      | h :: _ => dictSet props1 "gbif_habit" (.str h)
    return props2

/-- Month-number to month-name table (`MONTH_NAMES`). -/
def MONTH_NAMES : List (Int × String) :=
  [(1, "January"), (2, "February"), (3, "March"), (4, "April"),
   (5, "May"), (6, "June"), (7, "July"), (8, "August"),
   (9, "September"), (10, "October"), (11, "November"), (12, "December")]

/-- `MONTH_NAMES[m]` guarded by `m in MONTH_NAMES`. -/
def monthName? (m : Int) : Option String :=
  (MONTH_NAMES.find? (fun p => p.1 = m)).map Prod.snd

/-- `month_counts[k] = v` on an insertion-ordered int-keyed dict. -/
def intDictSet : List (Int × Json) → Int → Json → List (Int × Json)
  | [], k, v => [(k, v)]
  | (k', v') :: rest, k, v =>
    if k' = k then (k, v) :: rest else (k', v') :: intDictSet rest k v

/-- The `for count in facet.get("counts")` loop: each iteration runs inside
`try ... except (KeyError, ValueError): pass`, so those two exception kinds
skip the entry while every other kind propagates. -/
def monthLoop : List Json → List (Int × Json) → Except PyErr (List (Int × Json))
  | [], mc => .ok mc
  | c :: rest, mc =>
    let step : Except PyErr (List (Int × Json)) := do
      let nameVal ← pySubscrKey c "name"
      let monthNum ← pyInt nameVal
      let countVal ← pySubscrKey c "count"
      pure (intDictSet mc monthNum countVal)
    match step with
    | .ok mc' => monthLoop rest mc'
    | .error .keyError => monthLoop rest mc
    | .error .valueError => monthLoop rest mc
    | .error e => .error e

/-- The `for facet in facets` loop of `fetch_gbif_phenology`. -/
def facetLoop : List Json → List (Int × Json) → Except PyErr (List (Int × Json))
  | [], mc => .ok mc
  | facet :: rest, mc => do
    let fv ← facet.get? "field"
    if isStrEq fv "MONTH" then do
      let counts := jOrD (← facet.get? "counts") (.arr [])
      let items ← pyIter counts
      let mc' ← monthLoop items mc
      facetLoop rest mc'
    else facetLoop rest mc

/-- `enrich_characteristics.fetch_gbif_phenology`.  The Python float
arithmetic `avg = sum(...) / len(...)` and the comparison `c > avg * 0.5`
are modelled by the exact fractions `PyRat`. -/
def fetch_gbif_phenology (res : FetchRes) : Except PyErr PropMap := do
  match res with
  | none => return []
  | some body => do
    let data ← jsonOf body
    let facets := jOrD (← data.get? "facets") (.arr [])
    let facetList ← pyIter facets
    let mc ← facetLoop facetList []
    match mc with
    | [] => return []
    | _ :: _ => do
      let items ← mc.mapM (fun p => do
        let n ← pyNum p.2
        pure (p.1, n))
      let sortedMonths := List.insertionSort (fun a b : Int × Int => b.2 ≤ a.2) items
      let peakMonths := (sortedMonths.take 3).filterMap (fun p => monthName? p.1)
      let avg : PyRat := pyDiv ((items.map (·.2)).sum) items.length
      let activeMonths := List.insertionSort (fun a b : Int => a ≤ b)
        ((items.filter (fun p => pyLtInt (pyHalf avg) p.2)).map (·.1))
      let seasonStr :=
        match activeMonths with
        | [] => ""
        | _ :: _ => String.intercalate ", " (activeMonths.filterMap monthName?)
      let props1 :=
        match peakMonths with
        | [] => []
        | _ :: _ =>
          dictSet [] "peak_observation_months" (.str (String.intercalate ", " peakMonths))
      let props2 :=
        if seasonStr ≠ "" then dictSet props1 "active_season" (.str seasonStr)
        else props1
      return props2

/-- The `for dist in results` loop of `fetch_gbif_distributions`. -/
def distLoop : List Json → PropMap → List Json → Except PyErr (PropMap × List Json)
  | [], props, states => .ok (props, states)
  | dist :: rest, props, states => do
    let threat ← dist.get? "threatStatus"
    let props' :=
      match threat with
      | some jv =>
        if truthy jv ∧ (jLookup props "iucn_threat_status").isNone then
          dictSet props "iucn_threat_status" jv
        else props
      | none => props
    let locId := jOrD (← dist.get? "locationId") (.str "")
    let locality := jOrD (← dist.get? "locality") (.str "")
    let starts ← pyStartsWith locId "TDWG:"
    let states' := if starts ∧ truthy locality then states ++ [locality] else states
    distLoop rest props' states'

/-- `enrich_characteristics.fetch_gbif_distributions`. -/
def fetch_gbif_distributions (res : FetchRes) : Except PyErr PropMap := do
  match res with
  | none => return []
  | some body => do
    let data ← jsonOf body
    let results := jOrD (← data.get? "results") (.arr [])
    let items ← pyIter results
    let pair ← distLoop items [] []
    match pair.2 with
    | [] => return pair.1
    | _ :: _ => do
      let strs ← pair.2.mapM (fun j =>
        match j with
        | Json.str s => Except.ok s
        | _ => Except.error PyErr.typeError)
      let sortedSet := List.insertionSort (fun a b : String => strLe a b = true)
        strs.eraseDups
      return dictSet pair.1 "us_states"
        (.str (String.intercalate ", " (sortedSet.take 20)))

/-! ### The rate-limited fetcher `safe_get`

The network is modelled as a function from attempt index to outcome. -/

/-- Outcome of one `requests.get` call. -/
inductive NetOutcome where
  | success (status : Nat) (body : NetBody)
  | exc

/-- `scraper.safe_get`, instrumented with the list of sleep durations it
performs.  Non-200/non-404 statuses retry immediately (no sleep is on that
path); only a transport exception sleeps `delay`. -/
def safe_get_aux (net : Nat → NetOutcome) (delay : Nat) :
    Nat → Nat → Option (Nat × NetBody) × List Nat
  | 0, _ => (none, [])
  | n + 1, i =>
    match net i with
    | .success status body =>
      if status = 200 then (some (status, body), [])
      else if status = 404 then (none, [])
      else safe_get_aux net delay n (i + 1)
    | .exc =>
      let r := safe_get_aux net delay n (i + 1)
      (r.1, delay :: r.2)

/-- `scraper.safe_get` with `retries` attempts and backoff `delay`; returns
the response (status and body) or `None`, together with the sleeps made. -/
def safe_get (net : Nat → NetOutcome) (retries delay : Nat) :
    Option (Nat × NetBody) × List Nat :=
  safe_get_aux net delay retries 0

/-- `enrich_characteristics.safe_get`: identical control flow except that
the sleep in the exception handler is guarded by
`if attempt < retries - 1`, so the final attempt never sleeps. -/
def safe_get_chars_aux (net : Nat → NetOutcome) (delay : Nat) :
    Nat → Nat → Option (Nat × NetBody) × List Nat
  | 0, _ => (none, [])
  | n + 1, i =>
    match net i with
    | .success status body =>
      if status = 200 then (some (status, body), [])
      else if status = 404 then (none, [])
      else safe_get_chars_aux net delay n (i + 1)
    | .exc =>
      let r := safe_get_chars_aux net delay n (i + 1)
      (r.1, if n > 0 then delay :: r.2 else r.2)

/-- `enrich_characteristics.safe_get`. -/
def safe_get_chars (net : Nat → NetOutcome) (retries delay : Nat) :
    Option (Nat × NetBody) × List Nat :=
  safe_get_chars_aux net delay retries 0

/-! ### The property store (`Neo4jDatabase.update_plant` / `_set_props`)

A `Plant` node is its scientific name plus a partial map from field names to
values; the store is the list of nodes.  `SET p.f = $v` with a null
parameter removes the property, which the model renders as `none`. -/

/-- One `Plant` node. -/
structure Entity where
  name : String
  fields : String → Option Json

/-- The graph store, as seen by `update_plant`. -/
def Store := List Entity

/-- `re.sub(r"[^a-zA-Z0-9_]", "_", k)[:50]`. -/
def sanitize (k : String) : String :=
  String.mk ((k.toList.map fun c =>
    if c.isAlphanum ∨ c = '_' then c else '_').take 50)

/-- The `SET` clause field names of `_set_props` (one per key of `props`,
in order). -/
def buildSetParts (props : PropMap) : List String :=
  props.map fun kv => sanitize kv.1

/-- The query parameters of `_set_props`: the dict comprehension
`{safe(k): v for k, v in props.items()}` followed by
`params["scientific_name"] = scientific_name`. -/
def buildParams (sci : String) (props : PropMap) : List (String × Json) :=
  dictSet (props.foldl (fun acc kv => dictSet acc (sanitize kv.1) kv.2) [])
    "scientific_name" (.str sci)

/-- `SET p.f = $v`: a null parameter removes the property. -/
def cypherVal : Json → Option Json
  | .null => none
  | v => some v

/-- Apply the `SET` items `p.safe = $safe` of `_set_props` left to right. -/
def setFields (parts : List String) (params : List (String × Json))
    (fl : String → Option Json) : String → Option Json :=
  parts.foldl
    (fun fl p => fun f => if f = p then (jLookup params p).bind cypherVal else fl f)
    fl

/-- The Cypher write of `_set_props`: every node matching the scientific
name receives the `SET` clause. -/
def set_props (sci : String) (props : PropMap) (st : Store) : Store :=
  st.map fun e =>
    if e.name = sci then
      { e with fields := setFields (buildSetParts props) (buildParams sci props) e.fields }
    else e

/-- `Neo4jDatabase.update_plant`: a no-op on an empty map, otherwise one
write transaction.  The second component counts the writes issued. -/
def update_plant (st : Store) (sci : String) (props : PropMap) : Store × Nat :=
  match props with
  | [] => (st, 0)
  | _ :: _ => (set_props sci props st, 1)

/-! ### The image store (`Neo4jDatabase.store_image` / `_add_image_node`) -/

/-- An `Image` node. -/
structure ImageNode where
  url : String
  local_path : String
  source : String
deriving DecidableEq, Repr

/-- The part of the graph `_add_image_node` touches: `Plant` names (unique
by the bootstrap `MERGE`), `Image` nodes, and `HAS_IMAGE` relationships. -/
structure GraphStore where
  plants : List String
  images : List ImageNode
  rels : List (String × String)
deriving DecidableEq, Repr

/-- `_add_image_node`: `MATCH` the plant (no row means no effect),
`MERGE (i:Image {url})`, `SET i.local_path, i.source`, `MERGE` the
`HAS_IMAGE` relationship. -/
def store_image (st : GraphStore) (sci url path source : String) : GraphStore :=
  if sci ∈ st.plants then
    let images' :=
      if st.images.any (fun im => im.url = url) then
        st.images.map fun im =>
          if im.url = url then { im with local_path := path, source := source }
          else im
      else st.images ++ [⟨url, path, source⟩]
    let rels' := if (sci, url) ∈ st.rels then st.rels else st.rels ++ [(sci, url)]
    { st with images := images', rels := rels' }
  else st

/-! ### The plant-list endpoint (`backend/main.py`, `get_plants`)

Filter conditions are evaluated in Cypher's three-valued logic: a row is
kept only when the conjunction of all conditions is `true` (not `null`). -/

/-- The columns of a `Plant` row that `get_plants` filters or orders on. -/
structure PlantRow where
  scientific_name : String
  common_name : Option String
  native_status : Option String
  growth_habit_primary : Option String
  duration : Option String
  has_wildlife_value : Option String
  has_pollinator_value : Option String
  has_wetland_data : Option String
deriving DecidableEq, Repr

/-- Query parameters of `get_plants` after FastAPI parsing. -/
structure PlantsParams where
  category : Option String
  search : Option String
  skip : Int
  limit : Int
  native_status : Option String
  wildlife : Option String
  pollinator : Option String
  wetland : Option String
  duration : Option String
  native_only : Option Bool

/-- Cypher `NOT` on a three-valued condition. -/
def cyNot : Option Bool → Option Bool
  | some b => some (¬ b)
  | none => none

/-- Cypher `AND`. -/
def cyAnd : Option Bool → Option Bool → Option Bool
  | some false, _ => some false
  | _, some false => some false
  | some true, some true => some true
  | _, _ => none

/-- Cypher `OR`. -/
def cyOr : Option Bool → Option Bool → Option Bool
  | some true, _ => some true
  | _, some true => some true
  | some false, some false => some false
  | _, _ => none

/-- Cypher `p.f = 'lit'`: `null` when the property is null. -/
def cyEq (v : Option String) (lit : String) : Option Bool :=
  v.map (fun s => s = lit)

/-- Cypher `p.f IN ['a', ...]` with a non-empty literal list. -/
def cyIn (v : Option String) (lits : List String) : Option Bool :=
  v.map (fun s => s ∈ lits)

/-- Substring test used for Cypher `CONTAINS`. -/
def substrb (needle hay : String) : Bool :=
  (hay.toList.tails.any fun suf => needle.toList.isPrefixOf suf)

/-- Cypher `p.f CONTAINS 'lit'`. -/
def cyContains (v : Option String) (lit : String) : Option Bool :=
  v.map (fun s => substrb lit s)

/-- Cypher `toLower(p.f) CONTAINS toLower($search)`. -/
def cyContainsLower (v : Option String) (lit : String) : Option Bool :=
  v.map (fun s => substrb (strLower lit) (strLower s))

/-- `CATEGORY_MAP` from `backend/main.py`, in declaration order. -/
def CATEGORY_MAP : List (String × String) :=
  [("Tree", "Trees"), ("Shrub", "Shrubs"), ("Subshrub", "Shrubs"),
   ("Vine", "Vines"), ("Forb/herb", "Wildflowers & Herbs"),
   ("Graminoid", "Grasses & Sedges"), ("Fern", "Ferns"),
   ("Nonvascular", "Mosses & Liverworts"), ("Lichenous", "Lichens")]

/-- Slug of a display category: `lower`, spaces to dashes, `&` to `and`. -/
def catSlug (cat : String) : String :=
  strReplace (strReplace (strLower cat) " " "-") "&" "and"

/-- `[v.strip() for v in s.split(",") if v.strip()]`. -/
def splitCommaStrip (s : String) : List String :=
  ((splitOnChar ',' s.data).map (fun l => strTrim (String.mk l))).filter (· ≠ "")

/-- The `WHERE` conditions built by `get_plants`, in source order. -/
def buildConditions (q : PlantsParams) : List (PlantRow → Option Bool) :=
  let c1 : List (PlantRow → Option Bool) :=
    if q.native_only = some true then [fun r => cyEq r.native_status "N"] else []
  let c2 : List (PlantRow → Option Bool) :=
    match q.native_status with
    | none => []
    | some ns =>
      if "!".data.isPrefixOf ns.data then
        let excluded := splitCommaStrip (strDrop ns 1)
        if excluded ≠ [] then [fun r => cyNot (cyIn r.native_status excluded)] else []
      else
        let included := splitCommaStrip ns
        if included ≠ [] then [fun r => cyIn r.native_status included] else []
  let c3 : List (PlantRow → Option Bool) :=
    match q.category with
    | none => []
    | some cat =>
      if cat ≠ "all" then
        let targets := (CATEGORY_MAP.filter fun kv => catSlug kv.2 = cat).map Prod.fst
        match targets with
        | [] => []
        | t :: ts =>
          [fun r => (ts.map fun h => cyEq r.growth_habit_primary h).foldl cyOr
            (cyEq r.growth_habit_primary t)]
      else []
  let c4 : List (PlantRow → Option Bool) :=
    match q.search with
    | none => []
    | some s =>
      if s ≠ "" then
        [fun r => cyOr (cyContainsLower (some r.scientific_name) s)
          (cyContainsLower r.common_name s)]
      else []
  let boolCond (field : PlantRow → Option String) (v : Option String) :
      List (PlantRow → Option Bool) :=
    if v = some "true" then [fun r => cyEq (field r) "True"]
    else if v = some "false" then
      [fun r => cyOr (some (field r).isNone) (cyEq (field r) "False")]
    else []
  let c5 := boolCond (·.has_wildlife_value) q.wildlife
  let c6 := boolCond (·.has_pollinator_value) q.pollinator
  let c7 := boolCond (·.has_wetland_data) q.wetland
  let c8 : List (PlantRow → Option Bool) :=
    match q.duration with
    | none => []
    | some d =>
      if d ≠ "" then
        if "!".data.isPrefixOf d.data then
          (splitCommaStrip (strDrop d 1)).map fun t =>
            fun r => cyNot (cyContains r.duration t)
        else
          match splitCommaStrip d with
          | [] => []
          | t :: ts =>
            [fun r => (ts.map fun u => cyContains r.duration u).foldl cyOr
              (cyContains r.duration t)]
      else []
  c1 ++ c2 ++ c3 ++ c4 ++ c5 ++ c6 ++ c7 ++ c8

/-- A row passes the `WHERE` clause when the conjunction of all conditions
evaluates to `true`. -/
def rowMatches (q : PlantsParams) (r : PlantRow) : Bool :=
  ((buildConditions q).foldl (fun acc c => cyAnd acc (c r)) (some true)) = some true

/-- `ORDER BY p.scientific_name`. -/
def sortPlants (rows : List PlantRow) : List PlantRow :=
  List.insertionSort
    (fun a b : PlantRow => strLe a.scientific_name b.scientific_name = true) rows

/-- `get_plants`: FastAPI `Query` validation (`skip ≥ 0`, `1 ≤ limit ≤ 200`)
rejects the request with a 422 before the handler runs; an accepted request
filters, orders by scientific name, and applies `SKIP $skip LIMIT $limit`. -/
def get_plants (q : PlantsParams) (db : List PlantRow) :
    Except Nat (List PlantRow) :=
  if q.skip < 0 ∨ q.limit < 1 ∨ 200 < q.limit then .error 422
  else .ok ((((db.filter (rowMatches q)) |> sortPlants).drop q.skip.toNat).take
    q.limit.toNat)

/-! ### Concrete inputs used by the claim theorems -/

/-- GBIF occurrence-facet response carrying the month counts
`{3: 10, 6: 50, 9: 40, 12: 1}`. -/
def phenoInput : Json :=
  .obj [("facets", .arr [.obj [("field", .str "MONTH"), ("counts", .arr [
    .obj [("name", .str "3"), ("count", .num 10)],
    .obj [("name", .str "6"), ("count", .num 50)],
    .obj [("name", .str "9"), ("count", .num 40)],
    .obj [("name", .str "12"), ("count", .num 1)]])]])]

/-- A Wikipedia summary whose extract is 15 characters long but matches the
height pattern. -/
def shortExtractInput : Json := .obj [("extract", .str "It is 5 m tall.")]

/-- A GBIF descriptions response whose single description has the type
label `"Habitat and Ecology"`. -/
def habitatEcologyInput : Json :=
  .obj [("results", .arr [.obj [("type", .str "Habitat and Ecology"),
    ("description", .str "Moist woods and streambanks.")]])]

/-- A USDA profile payload whose `HasWildlife` flag is the number 1. -/
def numericFlagInput : Json := .obj [("HasWildlife", .num 1)]

/-- A USDA profile payload with a family ancestor. -/
def usdaFamilyInput : Json :=
  .obj [("Ancestors", .arr [.obj [("Rank", .str "Family"),
    ("Symbol", .str "ACERA")]])]

/-- A GBIF species match carrying a `family` field. -/
def gbifFamilyInput : Json :=
  .obj [("results", .arr [.obj [("family", .str "Sapindaceae")]])]

/-! ### Reference definitions and key inventories -/

/-- Habitat-bucket vocabulary of the descriptions adapter. -/
def descVocabHabitat : List String := ["habitat", "ecology", "distribution"]

/-- Habit-bucket vocabulary of the descriptions adapter. -/
def descVocabHabit : List String := ["habit", "growth form", "life form"]

/-- A returned description with string-valued `type` and `description`
fields, as `(type, description)`. -/
def mkDescItem (p : String × String) : Json :=
  .obj [("type", .str p.1), ("description", .str p.2)]

/-- The habitat-bucket texts of the amended descriptions claim: stripped
texts of at least 5 characters whose lowercased type label is exactly in
the habitat vocabulary, each truncated to 300 characters. -/
def refHabitatTexts (descs : List (String × String)) : List String :=
  ((descs.filter fun p => 5 ≤ (strTrim p.2).length).filter
    fun p => strLower p.1 ∈ descVocabHabitat).map
    fun p => String.mk ((strTrim p.2).data.take 300)

/-- The habit-bucket texts of the amended descriptions claim, truncated to
100 characters. -/
def refHabitTexts (descs : List (String × String)) : List String :=
  ((descs.filter fun p => 5 ≤ (strTrim p.2).length).filter
    fun p => strLower p.1 ∈ descVocabHabit).map
    fun p => String.mk ((strTrim p.2).data.take 100)

/-- Reference recombination for the descriptions adapter, following the
amended claim: classify by case-insensitive *exact* match of the type label
against the two vocabularies, skip descriptions whose stripped text is
shorter than 5 characters, truncate habitat texts to 300 and habit texts to
100 characters, join the first two habitat texts with a separator, keep only
the first habit text. -/
def gbifDescriptionsRef (descs : List (String × String)) : PropMap :=
  let m1 :=
    match refHabitatTexts descs with
    | [] => ([] : PropMap)
    | _ :: _ =>
      dictSet [] "habitat_notes"
        (.str (String.intercalate " | " ((refHabitatTexts descs).take 2)))
  match refHabitTexts descs with
  | [] => m1
  | h :: _ => dictSet m1 "gbif_habit" (.str h)

/-- Field names of a property map, in insertion order. -/
def mapKeys (m : PropMap) : List String := m.map Prod.fst

/-- Every field name `fetch_usda_profile` can emit. -/
def usdaKeyList : List String :=
  ["growth_habits", "growth_habit_primary", "duration", "plant_group", "rank",
   "usda_image_filename", "kingdom", "subkingdom", "division", "tax_class",
   "tax_order", "family", "genus", "has_wildlife_value",
   "has_pollinator_value", "has_wetland_data"]

/-- Every field name `fetch_gbif_taxonomy` can emit. -/
def gbifTaxKeyList : List String :=
  ["kingdom", "phylum", "gbif_class", "gbif_order", "family", "genus",
   "species", "vernacular_name"]

/-- Every field name `fetch_wikipedia_summary` can emit. -/
def wikiKeyList : List String := ["wiki_summary", "height_m"]

/-- Every field name `fetch_gbif_descriptions` can emit. -/
def descKeyList : List String := ["habitat_notes", "gbif_habit"]

/-- Every field name `fetch_gbif_phenology` can emit. -/
def phenoKeyList : List String := ["peak_observation_months", "active_season"]

/-- Every field name `fetch_gbif_distributions` can emit. -/
def distKeyList : List String := ["iucn_threat_status", "us_states"]

/-- An attempt outcome terminates the `safe_get` loop: HTTP 200 or 404. -/
def isTerminal : NetOutcome → Bool
  | .success status _ => status = 200 ∨ status = 404
  | .exc => false

/-- The sleeps `safe_get` performs while examining attempts
`start, …, start + n - 1`: one sleep of `delay` per transport exception. -/
def excSleeps (net : Nat → NetOutcome) (delay : Nat) : Nat → Nat → List Nat
  | _, 0 => []
  | start, n + 1 =>
    match net start with
    | .exc => delay :: excSleeps net delay (start + 1) n
    | .success _ _ => excSleeps net delay (start + 1) n

/-- Network schedule for C3's concrete scenario: two HTTP-500 responses,
then a 200 with body. -/
def twoFailNet : Nat → NetOutcome := fun i =>
  if i < 2 then .success 500 none else .success 200 (some (.str "ok"))

/-- A stored plant with one pre-existing field. -/
def demoEntity : Entity :=
  ⟨"Acer rubrum", fun f => if f = "common_name" then some (.str "red maple") else none⟩

/-- A one-plant store. -/
def demoStore : Store := [demoEntity]

/-- A property map whose key needs sanitizing. -/
def demoProps : PropMap := [("growth habits", .str "Tree, Shrub")]

/-- A graph with one plant and no images. -/
def demoGraph : GraphStore := ⟨["Acer rubrum"], [], []⟩

/-- Rows for exercising the plant-list endpoint. -/
def demoRows : List PlantRow :=
  [⟨"Quercus alba", some "white oak", some "N", some "Tree", some "Perennial",
    some "True", none, none⟩,
   ⟨"Acer rubrum", some "red maple", some "N", some "Tree", some "Perennial",
    some "True", some "True", none⟩,
   ⟨"Lonicera japonica", some "Japanese honeysuckle", some "I", some "Vine",
    some "Perennial", none, none, none⟩]

/-- Default query parameters of the plant-list endpoint. -/
def demoParams : PlantsParams :=
  ⟨none, none, 0, 50, none, none, none, none, none, none⟩

/-- Query parameters with an out-of-range limit. -/
def badParams : PlantsParams :=
  ⟨none, none, 0, 500, none, none, none, none, none, none⟩

/-- A 1001-character extract. -/
def longExtract : String := String.mk (List.replicate 1001 'a')

/-- A GBIF distributions response with one TDWG record. -/
def distInput : Json :=
  .obj [("results", .arr [.obj [("threatStatus", .str "LC"),
    ("locationId", .str "TDWG:VRG"), ("locality", .str "Virginia")]])]

/-! ## Theorems -/

/-- C1: the claim that every adapter returns a (possibly empty) property
map and never raises on a malformed network result is violated by the code:
`fetch_wikipedia_summary` calls `r.json()` outside any `try`, so an HTTP-200
response whose body is not valid JSON raises a `JSONDecodeError` out of the
adapter instead of yielding an empty map. -/
theorem C1_wikipedia_raises_on_malformed_body :
    fetch_wikipedia_summary "Acer rubrum" (some none) =
      .error .jsonDecodeError := rfl

/-- C5: on the month-count map `{3: 10, 6: 50, 9: 40, 12: 1}` the phenology
adapter emits exactly `peak_observation_months = "June, September, March"`
(top three months by count, descending) and
`active_season = "June, September"` (months whose count exceeds half the
mean 25.25, i.e. 12.625: June and September qualify, March and December do
not). -/
theorem C5_phenology_concrete :
    fetch_gbif_phenology (some (some phenoInput)) =
      .ok [("peak_observation_months", .str "June, September, March"),
           ("active_season", .str "June, September")] := rfl

/-- C4 counterexample: the claim that the Wikipedia adapter returns an
empty map whenever the extract has length at most 50 is false: the
15-character extract `"It is 5 m tall."` produces a non-empty map carrying
a `height_m` field extracted by the height pattern. -/
theorem C4_short_extract_nonempty_map :
    fetch_wikipedia_summary "Acer rubrum" (some (some shortExtractInput)) =
      .ok [("height_m", .str "5 m tall")] ∧
    ("It is 5 m tall." : String).length ≤ 50 :=
  ⟨rfl, by decide⟩

/-- C6 counterexample: the claim that descriptions are classified by
case-insensitive *substring* matching is false: the type label
`"Habitat and Ecology"` contains the vocabulary word `"habitat"` as a
(case-insensitive) substring, yet the adapter classifies nothing and
returns the empty map, because the code tests exact membership of the
lowercased label in the vocabulary tuple. -/
theorem C6_substring_label_not_classified :
    fetch_gbif_descriptions (some (some habitatEcologyInput)) = .ok [] ∧
    substrb "habitat" (strLower "Habitat and Ecology") = true :=
  ⟨rfl, by decide⟩

/-- C8 counterexample: the claim that the three capability fields are
always the string `"True"` or `"False"` is false for a successfully parsed
payload whose `HasWildlife` flag is the JSON number 1: the adapter emits
`str(1) = "1"`. -/
theorem C8_numeric_flag_not_boolean_string :
    fetch_usda_profile (some (some numericFlagInput)) =
      .ok [("has_wildlife_value", .str "1"),
           ("has_pollinator_value", .str "False"),
           ("has_wetland_data", .str "False")] ∧
    ("1" : String) ≠ "True" ∧ ("1" : String) ≠ "False" :=
  ⟨rfl, by decide, by decide⟩

/-- C7 counterexample: the claim that distinct adapters emit disjoint field
name sets is false: both the USDA profile adapter and the GBIF taxonomy
adapter can emit the field name `family`. -/
theorem C7_family_emitted_by_both :
    fetch_usda_profile (some (some usdaFamilyInput)) =
      .ok [("family", .str "ACERA"),
           ("has_wildlife_value", .str "False"),
           ("has_pollinator_value", .str "False"),
           ("has_wetland_data", .str "False")] ∧
    fetch_gbif_taxonomy "Acer rubrum" (some (some gbifFamilyInput)) =
      [("family", .str "Sapindaceae")] ∧
    "family" ∈ mapKeys [("family", Json.str "ACERA"),
      ("has_wildlife_value", Json.str "False"),
      ("has_pollinator_value", Json.str "False"),
      ("has_wetland_data", Json.str "False")] ∧
    "family" ∈ mapKeys [("family", Json.str "Sapindaceae")] :=
  ⟨rfl, rfl, by simp [mapKeys], by simp [mapKeys]⟩

/-- C3 counterexample: the claim that any non-200/non-404 status causes a
sleep of `backoff_delay` before the retry is false: with two HTTP-500
responses followed by a 200 and `retries = 3`, `safe_get` performs no sleep
at all (the sleep sits only in the exception handler), while still
returning the 200 body. -/
theorem C3_no_sleep_on_bad_status :
    safe_get twoFailNet 3 2 = (some (200, some (.str "ok")), []) ∧
    ([] : List Nat) ≠ [2, 2] :=
  ⟨rfl, by decide⟩

/-- The `SET` items write a field iff its name occurs among the parts, and
the value written depends only on the params. -/
theorem setFields_eq (parts : List String) (params : List (String × Json))
    (fl : String → Option Json) (f : String) :
    setFields parts params fl f =
      if f ∈ parts then (jLookup params f).bind cypherVal else fl f := by
  induction parts generalizing fl with
  | nil => simp [setFields]
  | cons p ps ih =>
    show setFields ps params _ f = _
    rw [ih]
    by_cases hf : f ∈ ps
    · simp [hf]
    · by_cases hp : f = p
      · subst hp
        simp [hf]
      · simp [hf, hp]

/-- The effect of `_set_props` on one stored node. -/
def applyUpdate (sci : String) (props : PropMap) (e : Entity) : Entity :=
  if e.name = sci then
    { e with fields := setFields (buildSetParts props) (buildParams sci props) e.fields }
  else e

/-- `set_props` is the per-node update applied across the store. -/
theorem set_props_eq_map (sci : String) (props : PropMap) (st : Store) :
    set_props sci props st = st.map (applyUpdate sci props) := rfl

/-- `applyUpdate` is idempotent on every node. -/
theorem applyUpdate_idem (sci : String) (props : PropMap) (e : Entity) :
    applyUpdate sci props (applyUpdate sci props e) = applyUpdate sci props e := by
  by_cases h : e.name = sci
  · have h1 : applyUpdate sci props e =
        Entity.mk e.name (setFields (buildSetParts props) (buildParams sci props) e.fields) := by
      unfold applyUpdate
      rw [if_pos h]
    rw [h1]
    unfold applyUpdate
    rw [if_pos (show (Entity.mk e.name (setFields (buildSetParts props)
      (buildParams sci props) e.fields)).name = sci from h)]
    congr 1
    funext f
    simp only [setFields_eq]
    by_cases hf : f ∈ buildSetParts props <;> simp [hf]
  · have h1 : applyUpdate sci props e = e := by
      unfold applyUpdate
      rw [if_neg h]
    rw [h1, h1]

/-- C2: `update_plant` with an empty map issues no write and leaves the
store untouched; with a non-empty map it issues exactly one write which
maps `applyUpdate` over the store; `applyUpdate` leaves every node with a
different scientific name unchanged, leaves every field not among the
sanitized supplied names unchanged, sets exactly the sanitized supplied
field names (to the corresponding query parameter), and re-running the same
update leaves the store unchanged. -/
theorem C2_update_plant_partial_update (st : Store) (sci : String) (props : PropMap) :
    (update_plant st sci [] = (st, 0)) ∧
    (props ≠ [] → update_plant st sci props =
      (st.map (applyUpdate sci props), 1)) ∧
    (∀ e : Entity, e.name ≠ sci → applyUpdate sci props e = e) ∧
    (∀ (e : Entity) (f : String), f ∉ buildSetParts props →
      (applyUpdate sci props e).fields f = e.fields f) ∧
    (∀ (e : Entity) (f : String), e.name = sci → f ∈ buildSetParts props →
      (applyUpdate sci props e).fields f =
        (jLookup (buildParams sci props) f).bind cypherVal) ∧
    ((update_plant (update_plant st sci props).1 sci props).1 =
      (update_plant st sci props).1) := by
  refine ⟨rfl, ?_, ?_, ?_, ?_, ?_⟩
  · intro h
    match props, h with
    | p :: ps, _ => rfl
  · intro e he
    simp [applyUpdate, he]
  · intro e f hf
    unfold applyUpdate
    by_cases h : e.name = sci
    · rw [if_pos h]
      show setFields (buildSetParts props) (buildParams sci props) e.fields f = e.fields f
      rw [setFields_eq]
      simp [hf]
    · rw [if_neg h]
  · intro e f he hf
    unfold applyUpdate
    rw [if_pos he]
    show setFields (buildSetParts props) (buildParams sci props) e.fields f = _
    rw [setFields_eq]
    simp [hf]
  · match props with
    | [] => rfl
    | p :: ps =>
      show (set_props sci (p :: ps) (set_props sci (p :: ps) st), 1).1 = _
      rw [set_props_eq_map, set_props_eq_map, List.map_map]
      exact List.map_congr_left fun e _ => applyUpdate_idem sci (p :: ps) e

/-- Witness for C2 at a concrete store and property map: the sanitized
field `growth_habits` is written, the pre-existing `common_name` field
survives, no write happens on the empty map, and the update is idempotent. -/
theorem C2_update_plant_witness :
    update_plant demoStore "Acer rubrum" [] = (demoStore, 0) ∧
    (applyUpdate "Acer rubrum" demoProps demoEntity).fields "common_name" =
      some (.str "red maple") ∧
    (applyUpdate "Acer rubrum" demoProps demoEntity).fields "growth_habits" =
      (jLookup (buildParams "Acer rubrum" demoProps) "growth_habits").bind cypherVal ∧
    (update_plant (update_plant demoStore "Acer rubrum" demoProps).1
      "Acer rubrum" demoProps).1 =
      (update_plant demoStore "Acer rubrum" demoProps).1 := by
  have h := C2_update_plant_partial_update demoStore "Acer rubrum" demoProps
  refine ⟨h.1, ?_, ?_, h.2.2.2.2.2⟩
  · exact h.2.2.2.1 demoEntity "common_name" (by decide)
  · exact h.2.2.2.2.1 demoEntity "growth_habits" rfl (by decide)

/-- C9: when the plant exists and neither an `Image` node with this URL nor
the `HAS_IMAGE` relationship is present yet, two `store_image` calls with
the same URL leave exactly one `Image` node keyed by that URL (carrying the
second call's `local_path` and `source`) and exactly one relationship; the
second call re-sets the two fields and creates no duplicate node or
relationship. -/
theorem C9_store_image_upsert (st : GraphStore) (sci url p1 s1 p2 s2 : String)
    (hp : sci ∈ st.plants) (hu : ∀ im ∈ st.images, im.url ≠ url)
    (hr : (sci, url) ∉ st.rels) :
    store_image (store_image st sci url p1 s1) sci url p2 s2 =
      ⟨st.plants, st.images ++ [⟨url, p2, s2⟩], st.rels ++ [(sci, url)]⟩ ∧
    (((store_image (store_image st sci url p1 s1) sci url p2 s2).images.filter
      (fun im => im.url = url)).length = 1) ∧
    (((store_image (store_image st sci url p1 s1) sci url p2 s2).rels.filter
      (fun r => r = (sci, url))).length = 1) := by
  have hany : (st.images.any fun im => im.url = url) = false := by
    simp only [List.any_eq_false, decide_eq_true_eq]
    exact hu
  have h1 : store_image st sci url p1 s1 =
      ⟨st.plants, st.images ++ [⟨url, p1, s1⟩], st.rels ++ [(sci, url)]⟩ := by
    unfold store_image
    rw [if_pos hp, hany, if_neg hr]
    rfl
  have hmapid : (st.images.map fun im =>
      if im.url = url then { im with local_path := p2, source := s2 } else im) =
      st.images := by
    conv_rhs => rw [← List.map_id st.images]
    apply List.map_congr_left
    intro im him
    simp [hu im him]
  have h2 : store_image (store_image st sci url p1 s1) sci url p2 s2 =
      ⟨st.plants, st.images ++ [⟨url, p2, s2⟩], st.rels ++ [(sci, url)]⟩ := by
    rw [h1]
    unfold store_image
    rw [if_pos hp]
    have hany2 : ((st.images ++ [(⟨url, p1, s1⟩ : ImageNode)]).any
        fun im => im.url = url) = true := by
      simp [List.any_append]
    rw [hany2]
    have hmem : (sci, url) ∈ st.rels ++ [(sci, url)] := by simp
    rw [if_pos hmem]
    simp [hmapid]
  refine ⟨h2, ?_, ?_⟩
  · rw [h2]
    have hnil : st.images.filter (fun im => im.url = url) = [] := by
      rw [List.filter_eq_nil_iff]
      intro im him
      simp [hu im him]
    simp [List.filter_append, hnil]
  · rw [h2]
    have hnil : st.rels.filter (fun r => r = (sci, url)) = [] := by
      rw [List.filter_eq_nil_iff]
      intro r hrr
      simp only [decide_eq_true_eq]
      intro heq
      exact hr (heq ▸ hrr)
    simp [List.filter_append, hnil]

/-- Witness for C9 on a one-plant, no-image graph. -/
theorem C9_store_image_witness :
    store_image (store_image demoGraph "Acer rubrum" "http://img/1.jpg" "images/a_0.jpg"
        "wikimedia") "Acer rubrum" "http://img/1.jpg" "images/a_0b.jpg" "wikimedia" =
      ⟨["Acer rubrum"], [⟨"http://img/1.jpg", "images/a_0b.jpg", "wikimedia"⟩],
       [("Acer rubrum", "http://img/1.jpg")]⟩ := by
  have h := C9_store_image_upsert demoGraph "Acer rubrum" "http://img/1.jpg"
    "images/a_0.jpg" "wikimedia" "images/a_0b.jpg" "wikimedia"
    (by decide) (by intro im him; simp [demoGraph] at him) (by decide)
  exact h.1

/-- Decomposition of the sleep trace at the first examined attempt. -/
theorem excSleeps_succ (net : Nat → NetOutcome) (delay start n : Nat) :
    excSleeps net delay start (n + 1) =
      (match net start with
       | .exc => [delay]
       | .success _ _ => []) ++ excSleeps net delay (start + 1) n := by
  cases hs : net start <;> simp [excSleeps, hs]

/-- Full behaviour of the `safe_get` loop from an arbitrary start index:
if every examined attempt is non-terminal the loop exhausts and returns
`None`, sleeping only for the exceptions; a first terminal attempt stops
the loop, returning the response on a 200 and `None` on a 404, again with
sleeps only for the earlier exceptions. -/
theorem safe_get_aux_spec (net : Nat → NetOutcome) (delay : Nat) :
    ∀ n start,
      ((∀ j, j < n → isTerminal (net (start + j)) = false) →
        safe_get_aux net delay n start = (none, excSleeps net delay start n)) ∧
      (∀ i, i < n → (∀ j, j < i → isTerminal (net (start + j)) = false) →
        ∀ status body, net (start + i) = .success status body →
        status = 200 ∨ status = 404 →
        safe_get_aux net delay n start =
          (if status = 200 then some (status, body) else none,
           excSleeps net delay start i)) := by
  intro n
  induction n with
  | zero =>
    intro start
    refine ⟨fun _ => ?_, fun i hi => absurd hi (by omega)⟩
    simp [safe_get_aux, excSleeps]
  | succ n ih =>
    intro start
    constructor
    · intro hall
      have h0 := hall 0 (by omega)
      rw [Nat.add_zero] at h0
      rw [excSleeps_succ]
      cases hs : net start with
      | success status body =>
        rw [hs] at h0
        have h200 : ¬ status = 200 := by
          intro h
          simp [isTerminal, h] at h0
        have h404 : ¬ status = 404 := by
          intro h
          simp [isTerminal, h] at h0
        show safe_get_aux net delay (n + 1) start = _
        unfold safe_get_aux
        simp only [hs]
        rw [if_neg h200, if_neg h404]
        rw [(ih (start + 1)).1 (fun j hj => by
          have := hall (j + 1) (by omega)
          rwa [show start + (j + 1) = start + 1 + j by omega] at this)]
        simp [hs]
      | exc =>
        show safe_get_aux net delay (n + 1) start = _
        unfold safe_get_aux
        simp only [hs]
        rw [(ih (start + 1)).1 (fun j hj => by
          have := hall (j + 1) (by omega)
          rwa [show start + (j + 1) = start + 1 + j by omega] at this)]
        simp [hs]
    · intro i hi hpre status body hterm hsb
      cases i with
      | zero =>
        rw [Nat.add_zero] at hterm
        show safe_get_aux net delay (n + 1) start = _
        unfold safe_get_aux
        simp only [hterm]
        rcases hsb with h | h <;> simp [h, excSleeps]
      | succ i =>
        have h0 := hpre 0 (by omega)
        rw [Nat.add_zero] at h0
        rw [excSleeps_succ]
        cases hs : net start with
        | success st0 b0 =>
          rw [hs] at h0
          have h200 : ¬ st0 = 200 := by
            intro h
            simp [isTerminal, h] at h0
          have h404 : ¬ st0 = 404 := by
            intro h
            simp [isTerminal, h] at h0
          show safe_get_aux net delay (n + 1) start = _
          unfold safe_get_aux
          simp only [hs]
          rw [if_neg h200, if_neg h404]
          rw [(ih (start + 1)).2 i (by omega) (fun j hj => by
            have := hpre (j + 1) (by omega)
            rwa [show start + (j + 1) = start + 1 + j by omega] at this)
            status body (by rwa [show start + 1 + i = start + (i + 1) by omega]) hsb]
          simp [hs]
        | exc =>
          show safe_get_aux net delay (n + 1) start = _
          unfold safe_get_aux
          simp only [hs]
          rw [(ih (start + 1)).2 i (by omega) (fun j hj => by
            have := hpre (j + 1) (by omega)
            rwa [show start + (j + 1) = start + 1 + j by omega] at this)
            status body (by rwa [show start + 1 + i = start + (i + 1) by omega]) hsb]
          simp [hs]

/-- C3 (amended): `safe_get` returns the response immediately on an HTTP
200 and `None` immediately on a 404 (sleeping only for transport exceptions
seen earlier — a non-200/non-404 status retries *without* sleeping), and
returns `None` after `retries` attempts when no attempt hits 200 or 404;
in particular two failed attempts followed by a 200 with `retries = 3`
yield the 200 body. -/
theorem C3_safe_get_amended (net : Nat → NetOutcome) (retries delay : Nat) :
    (∀ i body, i < retries → (∀ j, j < i → isTerminal (net j) = false) →
      net i = .success 200 body →
      safe_get net retries delay = (some (200, body), excSleeps net delay 0 i)) ∧
    (∀ i body, i < retries → (∀ j, j < i → isTerminal (net j) = false) →
      net i = .success 404 body →
      safe_get net retries delay = (none, excSleeps net delay 0 i)) ∧
    ((∀ j, j < retries → isTerminal (net j) = false) →
      safe_get net retries delay = (none, excSleeps net delay 0 retries)) ∧
    safe_get twoFailNet 3 2 = (some (200, some (.str "ok")), []) := by
  refine ⟨?_, ?_, ?_, rfl⟩
  · intro i body hi hpre hterm
    have h := (safe_get_aux_spec net delay retries 0).2 i hi
      (fun j hj => by simpa using hpre j hj) 200 body (by simpa using hterm)
      (Or.inl rfl)
    simpa [safe_get] using h
  · intro i body hi hpre hterm
    have h := (safe_get_aux_spec net delay retries 0).2 i hi
      (fun j hj => by simpa using hpre j hj) 404 body (by simpa using hterm)
      (Or.inr rfl)
    simpa [safe_get] using h
  · intro hall
    have h := (safe_get_aux_spec net delay retries 0).1
      (fun j hj => by simpa using hall j hj)
    simpa [safe_get] using h

/-- Witness for C3 on the two-failures-then-200 schedule. -/
theorem C3_safe_get_witness :
    safe_get twoFailNet 3 2 =
      (some (200, some (.str "ok")), excSleeps twoFailNet 2 0 2) :=
  (C3_safe_get_amended twoFailNet 3 2).1 2 (some (.str "ok")) (by omega)
    (fun j hj => by
      match j, hj with
      | 0, _ => rfl
      | 1, _ => rfl)
    rfl

/-- Code-point comparison is total. -/
theorem charListLe_total : ∀ a b : List Char,
    charListLe a b = true ∨ charListLe b a = true := by
  intro a
  induction a with
  | nil => intro b; left; simp [charListLe]
  | cons c as ih =>
    intro b
    cases b with
    | nil => right; simp [charListLe]
    | cons d bs =>
      unfold charListLe
      by_cases h1 : c.toNat < d.toNat
      · left; simp [h1]
      · by_cases h2 : d.toNat < c.toNat
        · right; simp [h1, h2]
        · rcases ih bs with h | h
          · left; simp [h1, h2, h]
          · right; simp [h1, h2, h]

/-- Code-point comparison is transitive. -/
theorem charListLe_trans : ∀ a b c : List Char,
    charListLe a b = true → charListLe b c = true → charListLe a c = true := by
  intro a
  induction a with
  | nil => intros; simp [charListLe]
  | cons x as ih =>
    intro b c hab hbc
    cases b with
    | nil => simp [charListLe] at hab
    | cons y bs =>
      cases c with
      | nil => simp [charListLe] at hbc
      | cons z cs =>
        unfold charListLe at hab hbc ⊢
        by_cases hxy : x.toNat < y.toNat
        · by_cases hyz : y.toNat < z.toNat
          · simp [show x.toNat < z.toNat by omega]
          · by_cases hzy : z.toNat < y.toNat
            · simp [hyz, hzy] at hbc
            · simp [show x.toNat < z.toNat by omega]
        · by_cases hyx : y.toNat < x.toNat
          · simp [hxy, hyx] at hab
          · have hab' : charListLe as bs = true := by simpa [hxy, hyx] using hab
            by_cases hyz : y.toNat < z.toNat
            · simp [show x.toNat < z.toNat by omega]
            · by_cases hzy : z.toNat < y.toNat
              · simp [hyz, hzy] at hbc
              · have hbc' : charListLe bs cs = true := by simpa [hyz, hzy] using hbc
                simp [show ¬ x.toNat < z.toNat by omega,
                  show ¬ z.toNat < x.toNat by omega, ih bs cs hab' hbc']

/-- C10: a request with `skip < 0` or `limit` outside `1..200` is rejected
with a 422 before any query runs; an accepted request returns at most
`limit` (hence at most 200) rows, sorted by scientific name, and its `i`-th
row is the `(skip + i)`-th row of the sorted filtered table. -/
theorem C10_get_plants_pagination (q : PlantsParams) (db : List PlantRow) :
    (q.skip < 0 ∨ q.limit < 1 ∨ 200 < q.limit → get_plants q db = .error 422) ∧
    (∀ res, get_plants q db = .ok res →
      res.length ≤ q.limit.toNat ∧ q.limit.toNat ≤ 200 ∧
      List.Pairwise (fun a b : PlantRow =>
        strLe a.scientific_name b.scientific_name = true) res ∧
      ∀ i, i < res.length →
        res[i]? = (sortPlants (db.filter (rowMatches q)))[q.skip.toNat + i]?) := by
  constructor
  · intro h
    unfold get_plants
    rw [if_pos h]
  · intro res hres
    by_cases h : q.skip < 0 ∨ q.limit < 1 ∨ 200 < q.limit
    · unfold get_plants at hres
      rw [if_pos h] at hres
      cases hres
    · unfold get_plants at hres
      rw [if_neg h] at hres
      have hres' : ((sortPlants (db.filter (rowMatches q))).drop q.skip.toNat).take
          q.limit.toNat = res := by
        cases hres
        rfl
      refine ⟨?_, ?_, ?_, ?_⟩
      · rw [← hres']
        exact List.length_take_le _ _
      · omega
      · rw [← hres']
        have hsorted : List.Sorted (fun a b : PlantRow =>
            strLe a.scientific_name b.scientific_name = true)
            (sortPlants (db.filter (rowMatches q))) := by
          haveI : IsTotal PlantRow (fun a b =>
              strLe a.scientific_name b.scientific_name = true) :=
            ⟨fun a b => charListLe_total _ _⟩
          haveI : IsTrans PlantRow (fun a b =>
              strLe a.scientific_name b.scientific_name = true) :=
            ⟨fun a b c => charListLe_trans _ _ _⟩
          exact List.sorted_insertionSort _ _
        exact List.Pairwise.sublist
          (((List.take_sublist _ _).trans (List.drop_sublist _ _))) hsorted
      · intro i hi
        rw [← hres', List.getElem?_take]
        rw [← hres'] at hi
        rw [if_pos (by
          have := List.length_take_le q.limit.toNat
            ((sortPlants (db.filter (rowMatches q))).drop q.skip.toNat)
          omega)]
        exact List.getElem?_drop _ _ _

/-- Witness for C10: a limit of 500 is rejected with a 422, and the default
request on a three-row table returns all three rows sorted by scientific
name, within the limit. -/
theorem C10_get_plants_witness :
    get_plants badParams demoRows = .error 422 ∧
    ∀ res, get_plants demoParams demoRows = .ok res →
      res.length ≤ (50 : Int).toNat ∧
      List.Pairwise (fun a b : PlantRow =>
        strLe a.scientific_name b.scientific_name = true) res := by
  constructor
  · exact (C10_get_plants_pagination badParams demoRows).1
      (Or.inr (Or.inr (by decide)))
  · intro res hres
    have h := (C10_get_plants_pagination demoParams demoRows).2 res hres
    exact ⟨h.1, h.2.2.1⟩

/-- `x or ""` is the identity on strings (the default is itself a falsy
string). -/
theorem jOrD_str_empty (t : String) : jOrD (some (.str t)) (.str "") = .str t := by
  by_cases ht : t = "" <;> simp [jOrD, truthy, ht]

/-- `x or []` is the identity on lists. -/
theorem jOrD_arr_empty (xs : List Json) :
    jOrD (some (.arr xs)) (.arr []) = .arr xs := by
  cases xs <;> simp [jOrD, truthy]

/-- The description loop, on well-formed descriptions, appends the habitat
and habit texts of the amended claim to its accumulators. -/
theorem descLoop_ref (descs : List (String × String)) :
    ∀ hab habit, descLoop (descs.map mkDescItem) hab habit =
      .ok (hab ++ refHabitatTexts descs, habit ++ refHabitTexts descs) := by
  induction descs with
  | nil => intro hab habit; simp [descLoop, refHabitatTexts, refHabitTexts]
  | cons p rest ih =>
    intro hab habit
    have hstep : descLoop (mkDescItem p :: rest.map mkDescItem) hab habit =
        (if strTrim p.2 = "" ∨ (strTrim p.2).length < 5 then
          descLoop (rest.map mkDescItem) hab habit
         else if strLower p.1 = "habitat" ∨ strLower p.1 = "ecology" ∨
            strLower p.1 = "distribution" then
          descLoop (rest.map mkDescItem)
            (hab ++ [String.mk ((strTrim p.2).data.take 300)]) habit
         else if strLower p.1 = "habit" ∨ strLower p.1 = "growth form" ∨
            strLower p.1 = "life form" then
          descLoop (rest.map mkDescItem) hab
            (habit ++ [String.mk ((strTrim p.2).data.take 100)])
         else descLoop (rest.map mkDescItem) hab habit) := by
      simp only [descLoop, mkDescItem, Json.get?, jLookup, bind, Except.bind,
        jOrD_str_empty, pyLower, pyStrip, String.toList]
      norm_num
      rw [if_neg (show ¬ ("type" : String) = "description" from by decide)]
      simp only [jOrD_str_empty]
    rw [List.map_cons, hstep]
    by_cases h5 : strTrim p.2 = "" ∨ (strTrim p.2).length < 5
    · have hk : ¬ 5 ≤ (strTrim p.2).length := by
        rcases h5 with h | h
        · simp [h]
        · omega
      rw [if_pos h5, ih]
      simp [refHabitatTexts, refHabitTexts, hk]
    · have hk : 5 ≤ (strTrim p.2).length := by
        rcases Nat.lt_or_ge (strTrim p.2).length 5 with h | h
        · exact absurd (Or.inr h) h5
        · exact h
      rw [if_neg h5]
      by_cases hhab : strLower p.1 = "habitat" ∨ strLower p.1 = "ecology" ∨
          strLower p.1 = "distribution"
      · have hmem : strLower p.1 ∈ descVocabHabitat := by
          simp only [descVocabHabitat, List.mem_cons, List.mem_singleton]
          tauto
        have hnotmem : strLower p.1 ∉ descVocabHabit := by
          simp only [descVocabHabit, List.mem_cons, List.mem_singleton]
          intro hcon
          rcases hhab with h | h | h <;> rw [h] at hcon <;> simp at hcon
        rw [if_pos hhab, ih]
        simp [refHabitatTexts, refHabitTexts, hk, hmem, hnotmem]
      · rw [if_neg hhab]
        by_cases hhabit : strLower p.1 = "habit" ∨ strLower p.1 = "growth form" ∨
            strLower p.1 = "life form"
        · have hmem : strLower p.1 ∈ descVocabHabit := by
            simp only [descVocabHabit, List.mem_cons, List.mem_singleton]
            tauto
          have hnotmem : strLower p.1 ∉ descVocabHabitat := by
            simp only [descVocabHabitat, List.mem_cons, List.mem_singleton]
            intro hcon
            tauto
          rw [if_pos hhabit, ih]
          simp [refHabitatTexts, refHabitTexts, hk, hmem, hnotmem]
        · have hnm1 : strLower p.1 ∉ descVocabHabitat := by
            simp only [descVocabHabitat, List.mem_cons, List.mem_singleton]
            intro hcon
            tauto
          have hnm2 : strLower p.1 ∉ descVocabHabit := by
            simp only [descVocabHabit, List.mem_cons, List.mem_singleton]
            intro hcon
            tauto
          rw [if_neg hhabit, ih]
          simp [refHabitatTexts, refHabitTexts, hnm1, hnm2]

/-- C6 (amended): for every list of returned descriptions with free-text
type labels, the adapter classifies each description by case-insensitive
*exact* equality of its type label with the fixed vocabularies
habitat/ecology/distribution and habit/growth form/life form (descriptions
whose stripped text is shorter than 5 characters are skipped); each habitat
text is truncated to 300 characters and the first two are joined with
`" | "` into `habitat_notes`; each habit text is truncated to 100
characters and only the first is kept as `gbif_habit`. -/
theorem C6_descriptions_exact_classification (descs : List (String × String)) :
    fetch_gbif_descriptions
      (some (some (.obj [("results", .arr (descs.map mkDescItem))]))) =
      .ok (gbifDescriptionsRef descs) := by
  unfold fetch_gbif_descriptions
  simp only [jsonOf, bind, Except.bind, Json.get?, jLookup]
  norm_num
  rw [jOrD_arr_empty]
  simp only [pyIter, descLoop_ref descs [] [], List.nil_append]
  unfold gbifDescriptionsRef
  cases h2 : refHabitTexts descs <;> cases h1 : refHabitatTexts descs <;> rfl

/-- Looking up the key just written. -/
theorem jLookup_dictSet_self (m : List (String × Json)) (k : String) (v : Json) :
    jLookup (dictSet m k v) k = some v := by
  induction m with
  | nil => simp [dictSet, jLookup]
  | cons kv rest ih =>
    rcases kv with ⟨k0, v0⟩
    by_cases h : k0 = k
    · simp [dictSet, h, jLookup]
    · simp [dictSet, h, jLookup, ih]

/-- A write to one key leaves lookups of other keys unchanged. -/
theorem jLookup_dictSet_ne (m : List (String × Json)) (k : String) (v : Json)
    (k' : String) (h : k' ≠ k) :
    jLookup (dictSet m k v) k' = jLookup m k' := by
  induction m with
  | nil => simp [dictSet, jLookup, Ne.symm h]
  | cons kv rest ih =>
    rcases kv with ⟨k0, v0⟩
    by_cases h0 : k0 = k
    · subst h0
      simp [dictSet, jLookup, Ne.symm h]
    · simp [dictSet, h0, jLookup, ih]

/-- C4 (amended): the Wikipedia adapter returns the empty map on a
disambiguation page; on a non-disambiguation page with a string extract of
length at most 50 the returned map carries no `wiki_summary` field (it may
still carry a `height_m` field matched by the height pattern, so the map
need not be empty); when the extract exceeds 1000 characters the
`wiki_summary` value is the extract truncated to exactly 1000 characters. -/
theorem C4_wikipedia_summary_amended (name : String)
    (fields : List (String × Json)) (s : String)
    (hname : pySplitWs name ≠ [])
    (hext : jLookup fields "extract" = some (.str s)) :
    (jLookup fields "type" = some (.str "disambiguation") →
      fetch_wikipedia_summary name (some (some (.obj fields))) = .ok []) ∧
    (isStrEq (jLookup fields "type") "disambiguation" = false →
      ∀ m, fetch_wikipedia_summary name (some (some (.obj fields))) = .ok m →
        (s.length ≤ 50 → jLookup m "wiki_summary" = none) ∧
        (1000 < s.length →
          jLookup m "wiki_summary" = some (.str (String.mk (s.data.take 1000))) ∧
          (String.mk (s.data.take 1000)).length = 1000)) := by
  have hq : fetch_wikipedia_summary name (some (some (.obj fields))) =
      wikiSummaryCore (some (some (.obj fields))) := by
    unfold fetch_wikipedia_summary
    cases hp : pySplitWs name with
    | nil => exact absurd hp hname
    | cons p ps =>
      simp only [hp]
      split <;> rfl
  have hlen1000 : 1000 < s.length →
      (String.mk (s.data.take 1000)).length = 1000 := by
    intro h1000
    show (s.data.take 1000).length = 1000
    rw [List.length_take]
    have : s.length = s.data.length := rfl
    omega
  constructor
  · intro htype
    rw [hq]
    unfold wikiSummaryCore
    simp only [jsonOf, bind, Except.bind, Json.get?]
    rw [htype]
    simp [isStrEq]
    rfl
  · intro hfalse m hm
    rw [hq] at hm
    unfold wikiSummaryCore at hm
    simp only [jsonOf, bind, Except.bind, pure, Except.pure, Json.get?] at hm
    rw [hfalse] at hm
    simp only [Bool.false_eq_true, if_false, hext, jGetD] at hm
    by_cases hs : s = ""
    · subst hs
      have htr : truthy (.str "") = false := by simp [truthy]
      rw [htr] at hm
      simp only [Bool.false_eq_true, if_false,
        show searchHeight "" = none from rfl, Except.ok.injEq] at hm
      subst hm
      exact ⟨fun _ => rfl, fun h1000 => absurd h1000 (by simp)⟩
    · have htr : truthy (.str s) = true := by simp [truthy, hs]
      rw [htr] at hm
      simp only [if_true, ite_true, pyLen, bind, Except.bind, pure, Except.pure,
        pySliceTo, String.toList] at hm
      by_cases h50 : s.length > 50
      · rw [if_pos h50] at hm
        cases hsr : searchHeight s with
        | some sp =>
          rw [hsr] at hm
          simp only [Except.ok.injEq] at hm
          subst hm
          constructor
          · intro hc
            omega
          · intro h1000
            refine ⟨?_, hlen1000 h1000⟩
            rw [jLookup_dictSet_ne _ _ _ _ (by decide)]
            exact jLookup_dictSet_self _ _ _
        | none =>
          rw [hsr] at hm
          simp only [Except.ok.injEq] at hm
          subst hm
          constructor
          · intro hc
            omega
          · intro h1000
            exact ⟨jLookup_dictSet_self _ _ _, hlen1000 h1000⟩
      · rw [if_neg h50] at hm
        cases hsr : searchHeight s with
        | some sp =>
          rw [hsr] at hm
          simp only [Except.ok.injEq] at hm
          subst hm
          constructor
          · intro _
            simp [dictSet, jLookup]
          · intro h1000
            omega
        | none =>
          rw [hsr] at hm
          simp only [Except.ok.injEq] at hm
          subst hm
          exact ⟨fun _ => rfl, fun h1000 => absurd h1000 (by omega)⟩

set_option maxRecDepth 40000

/-- Witness for C4 on a 1001-character extract: the summary is capped at
exactly 1000 characters. -/
theorem C4_wikipedia_summary_witness :
    jLookup [("wiki_summary", Json.str (String.mk (List.replicate 1000 'a')))]
        "wiki_summary" =
      some (.str (String.mk (longExtract.data.take 1000))) ∧
    (String.mk (longExtract.data.take 1000)).length = 1000 := by
  have h := (C4_wikipedia_summary_amended "Acer rubrum"
    [("extract", .str longExtract)] longExtract (by decide) rfl).2 rfl
    [("wiki_summary", Json.str (String.mk (List.replicate 1000 'a')))] rfl
  exact h.2 (by simp [longExtract, String.length])

set_option maxRecDepth 512

/-- A successful `Except` bind factors through a successful first stage. -/
theorem except_bind_ok {α β : Type} (x : Except PyErr α) (f : α → Except PyErr β)
    (b : β) (h : x >>= f = .ok b) : ∃ a, x = .ok a ∧ f a = .ok b := by
  cases x with
  | ok a => exact ⟨a, rfl, h⟩
  | error e => simp [Bind.bind, Except.bind] at h

/-- Binding a successful computation just applies the continuation. -/
theorem ok_bind {α β : Type} (a : α) (f : α → Except PyErr β) :
    (Except.ok a : Except PyErr α) >>= f = f a := rfl

/-- Shape of the growth-habits/durations stage: the first dictionary is
empty or carries exactly the two growth keys, the second adds at most a
`duration` key; an absent `GrowthHabits`/`Durations` forces the
corresponding part to be trivial. -/
theorem usdaListProps_shape (fields : List (String × Json)) (p2 : PropMap)
    (h : usdaListProps (.obj fields) = .ok p2) :
    ∃ p1 : PropMap,
      (p1 = [] ∨ ∃ j h0, p1 = dictSet (dictSet [] "growth_habits" (.str j))
        "growth_habit_primary" h0) ∧
      (p2 = p1 ∨ ∃ j, p2 = dictSet p1 "duration" (.str j)) ∧
      (jLookup fields "GrowthHabits" = none → p1 = []) ∧
      (jLookup fields "Durations" = none → p2 = p1) := by
  unfold usdaListProps at h
  simp only [Json.get?, ok_bind, pure, Except.pure] at h
  by_cases ht1 : truthy (jOrD (jLookup fields "GrowthHabits") (.arr []))
  · rw [if_pos ht1] at h
    have hGHf : jLookup fields "GrowthHabits" = none → False := by
      intro hGH
      rw [hGH] at ht1
      simp [jOrD, truthy] at ht1
    rcases except_bind_ok _ _ _ h with ⟨j, _, h⟩
    rcases except_bind_ok _ _ _ h with ⟨h0, _, h⟩
    by_cases ht2 : truthy (jOrD (jLookup fields "Durations") (.arr []))
    · rw [if_pos ht2] at h
      rcases except_bind_ok _ _ _ h with ⟨j2, _, h⟩
      have hp2 : p2 = dictSet (dictSet (dictSet [] "growth_habits" (.str j))
          "growth_habit_primary" h0) "duration" (.str j2) := by
        cases h
        rfl
      exact ⟨_, Or.inr ⟨j, h0, rfl⟩, Or.inr ⟨j2, hp2⟩,
        fun hGH => (hGHf hGH).elim, fun hDur => by
          rw [hDur] at ht2
          simp [jOrD, truthy] at ht2⟩
    · rw [if_neg ht2] at h
      have hp2 : p2 = dictSet (dictSet [] "growth_habits" (.str j))
          "growth_habit_primary" h0 := by
        cases h
        rfl
      exact ⟨_, Or.inr ⟨j, h0, rfl⟩, Or.inl hp2,
        fun hGH => (hGHf hGH).elim, fun _ => hp2⟩
  · rw [if_neg ht1] at h
    by_cases ht2 : truthy (jOrD (jLookup fields "Durations") (.arr []))
    · rw [if_pos ht2] at h
      rcases except_bind_ok _ _ _ h with ⟨j2, _, h⟩
      have hp2 : p2 = dictSet [] "duration" (.str j2) := by
        cases h
        rfl
      exact ⟨[], Or.inl rfl, Or.inr ⟨j2, hp2⟩, fun _ => rfl, fun hDur => by
        rw [hDur] at ht2
        simp [jOrD, truthy] at ht2⟩
    · rw [if_neg ht2] at h
      have hp2 : p2 = [] := by
        cases h
        rfl
      exact ⟨[], Or.inl rfl, Or.inl hp2, fun _ => rfl, fun _ => hp2⟩

/-- The `Group`/`Rank`/`ProfileImageFilename` stage touches only its three
field names. -/
theorem usdaScalarProps_lookup (fields : List (String × Json)) (p p' : PropMap)
    (k : String) (h : usdaScalarProps (.obj fields) p = .ok p')
    (h1 : k ≠ "plant_group") (h2 : k ≠ "rank") (h3 : k ≠ "usda_image_filename") :
    jLookup p' k = jLookup p k := by
  have l1 : ∀ (mm : PropMap) v, jLookup (dictSet mm "plant_group" v) k = jLookup mm k :=
    fun mm v => jLookup_dictSet_ne mm _ v k h1
  have l2 : ∀ (mm : PropMap) v, jLookup (dictSet mm "rank" v) k = jLookup mm k :=
    fun mm v => jLookup_dictSet_ne mm _ v k h2
  have l3 : ∀ (mm : PropMap) v, jLookup (dictSet mm "usda_image_filename" v) k =
      jLookup mm k :=
    fun mm v => jLookup_dictSet_ne mm _ v k h3
  unfold usdaScalarProps at h
  simp only [Json.get?, ok_bind, pure, Except.pure] at h
  rcases hg : jLookup fields "Group" with _ | gv <;>
    rcases hr : jLookup fields "Rank" with _ | rv <;>
    rcases hpv : jLookup fields "ProfileImageFilename" with _ | pv <;>
    simp only [hg, hr, hpv] at h <;>
    try split_ifs at h
  all_goals (cases h; first | rfl | simp only [l1, l2, l3])

/-- The rank dispatch touches only the seven ancestor field names. -/
theorem rankAssign_lookup_ne (props : PropMap) (rank : String) (sym : Json)
    (k : String) (h1 : k ≠ "kingdom") (h2 : k ≠ "subkingdom")
    (h3 : k ≠ "division") (h4 : k ≠ "tax_class") (h5 : k ≠ "tax_order")
    (h6 : k ≠ "family") (h7 : k ≠ "genus") :
    jLookup (rankAssign props rank sym) k = jLookup props k := by
  unfold rankAssign
  split_ifs <;>
    first
      | rfl
      | rw [jLookup_dictSet_ne _ _ _ _ h1]
      | rw [jLookup_dictSet_ne _ _ _ _ h2]
      | rw [jLookup_dictSet_ne _ _ _ _ h3]
      | rw [jLookup_dictSet_ne _ _ _ _ h4]
      | rw [jLookup_dictSet_ne _ _ _ _ h5]
      | rw [jLookup_dictSet_ne _ _ _ _ h6]
      | rw [jLookup_dictSet_ne _ _ _ _ h7]

/-- The ancestor walk touches only the seven ancestor field names. -/
theorem usdaAncLoop_lookup (k : String) (h1 : k ≠ "kingdom")
    (h2 : k ≠ "subkingdom") (h3 : k ≠ "division") (h4 : k ≠ "tax_class")
    (h5 : k ≠ "tax_order") (h6 : k ≠ "family") (h7 : k ≠ "genus") :
    ∀ (l : List Json) (props p' : PropMap), usdaAncLoop l props = .ok p' →
      jLookup p' k = jLookup props k := by
  intro l
  induction l with
  | nil =>
    intro props p' h
    cases h
    rfl
  | cons anc rest ih =>
    intro props p' h
    unfold usdaAncLoop at h
    rcases except_bind_ok _ _ _ h with ⟨r1, _, h⟩
    rcases except_bind_ok _ _ _ h with ⟨rank, _, h⟩
    rcases except_bind_ok _ _ _ h with ⟨r2, _, h⟩
    rcases except_bind_ok _ _ _ h with ⟨r3, _, h⟩
    rw [ih _ _ h]
    exact rankAssign_lookup_ne _ _ _ _ h1 h2 h3 h4 h5 h6 h7

/-- The `Ancestors` stage touches only the seven ancestor field names. -/
theorem usdaAncProps_lookup (fields : List (String × Json)) (p p' : PropMap)
    (k : String) (h : usdaAncProps (.obj fields) p = .ok p')
    (h1 : k ≠ "kingdom") (h2 : k ≠ "subkingdom") (h3 : k ≠ "division")
    (h4 : k ≠ "tax_class") (h5 : k ≠ "tax_order") (h6 : k ≠ "family")
    (h7 : k ≠ "genus") : jLookup p' k = jLookup p k := by
  unfold usdaAncProps at h
  simp only [Json.get?, ok_bind] at h
  rcases except_bind_ok _ _ _ h with ⟨l, _, h⟩
  exact usdaAncLoop_lookup k h1 h2 h3 h4 h5 h6 h7 l p p' h

/-- With no `Ancestors` list the ancestor stage is the identity. -/
theorem usdaAncProps_id (fields : List (String × Json)) (p p' : PropMap)
    (hAnc : jLookup fields "Ancestors" = none)
    (h : usdaAncProps (.obj fields) p = .ok p') : p' = p := by
  unfold usdaAncProps at h
  simp only [Json.get?, ok_bind, hAnc, jOrD, pyIter, usdaAncLoop] at h
  cases h
  rfl

/-- The flag stage always appends exactly the three capability fields, in
source order, with the Python string form of each flag. -/
theorem usdaFlagProps_eq (fields : List (String × Json)) (p : PropMap) :
    usdaFlagProps (.obj fields) p =
      .ok (dictSet (dictSet (dictSet p "has_wildlife_value"
        (.str (pyStr (jGetD (jLookup fields "HasWildlife") (.bool false)))))
        "has_pollinator_value"
        (.str (pyStr (jGetD (jLookup fields "HasPollinator") (.bool false)))))
        "has_wetland_data"
        (.str (pyStr (jGetD (jLookup fields "HasWetlandData") (.bool false))))) := rfl

/-- C8 (amended): on every successfully processed payload the three
capability fields are present, holding the Python string form of the
payload flag — hence `"False"` when the flag is absent and
`"True"`/`"False"` when it is a JSON boolean (though other JSON flag
values yield other strings); the list-valued fields are absent when the
payload lacks `GrowthHabits`/`Durations`, and all seven ancestor-derived
taxonomy fields are absent when the payload lacks `Ancestors`. -/
theorem C8_usda_flags_amended (fields : List (String × Json)) :
    ∀ m, fetch_usda_profile (some (some (.obj fields))) = .ok m →
      (jLookup m "has_wildlife_value" =
        some (.str (pyStr (jGetD (jLookup fields "HasWildlife") (.bool false)))) ∧
       jLookup m "has_pollinator_value" =
        some (.str (pyStr (jGetD (jLookup fields "HasPollinator") (.bool false)))) ∧
       jLookup m "has_wetland_data" =
        some (.str (pyStr (jGetD (jLookup fields "HasWetlandData") (.bool false))))) ∧
      (jLookup fields "HasWildlife" = none →
        jLookup m "has_wildlife_value" = some (.str "False")) ∧
      (∀ b, jLookup fields "HasWildlife" = some (.bool b) →
        jLookup m "has_wildlife_value" =
          some (.str (if b then "True" else "False"))) ∧
      (jLookup fields "GrowthHabits" = none →
        jLookup m "growth_habits" = none ∧
        jLookup m "growth_habit_primary" = none) ∧
      (jLookup fields "Durations" = none → jLookup m "duration" = none) ∧
      (jLookup fields "Ancestors" = none →
        jLookup m "kingdom" = none ∧ jLookup m "subkingdom" = none ∧
        jLookup m "division" = none ∧ jLookup m "tax_class" = none ∧
        jLookup m "tax_order" = none ∧ jLookup m "family" = none ∧
        jLookup m "genus" = none) := by
  intro m hm
  have hm' : usdaListProps (.obj fields) >>= (fun p2 =>
      usdaScalarProps (.obj fields) p2 >>= fun p5 =>
      usdaAncProps (.obj fields) p5 >>= fun p6 =>
      usdaFlagProps (.obj fields) p6) = .ok m := hm
  rcases except_bind_ok _ _ _ hm' with ⟨p2, hp2, hm2⟩
  rcases except_bind_ok _ _ _ hm2 with ⟨p5, hp5, hm5⟩
  rcases except_bind_ok _ _ _ hm5 with ⟨p6, hp6, hm6⟩
  rw [usdaFlagProps_eq] at hm6
  have hmval : m = dictSet (dictSet (dictSet p6 "has_wildlife_value"
      (.str (pyStr (jGetD (jLookup fields "HasWildlife") (.bool false)))))
      "has_pollinator_value"
      (.str (pyStr (jGetD (jLookup fields "HasPollinator") (.bool false)))))
      "has_wetland_data"
      (.str (pyStr (jGetD (jLookup fields "HasWetlandData") (.bool false)))) := by
    cases hm6
    rfl
  have hwild : jLookup m "has_wildlife_value" =
      some (.str (pyStr (jGetD (jLookup fields "HasWildlife") (.bool false)))) := by
    rw [hmval, jLookup_dictSet_ne _ _ _ _ (by decide),
      jLookup_dictSet_ne _ _ _ _ (by decide)]
    exact jLookup_dictSet_self _ _ _
  have hflag_ne : ∀ k : String, k ≠ "has_wildlife_value" →
      k ≠ "has_pollinator_value" → k ≠ "has_wetland_data" →
      jLookup m k = jLookup p6 k := by
    intro k hk1 hk2 hk3
    rw [hmval, jLookup_dictSet_ne _ _ _ _ hk3, jLookup_dictSet_ne _ _ _ _ hk2,
      jLookup_dictSet_ne _ _ _ _ hk1]
  have hp2none : ∀ k : String, k ≠ "growth_habits" → k ≠ "growth_habit_primary" →
      k ≠ "duration" → jLookup p2 k = none := by
    intro k h1 h2 h3
    obtain ⟨p1, hsh1, hsh2, _, _⟩ := usdaListProps_shape fields p2 hp2
    have hp1 : jLookup p1 k = none := by
      rcases hsh1 with rfl | ⟨j, h0, rfl⟩
      · rfl
      · rw [jLookup_dictSet_ne _ _ _ _ h2, jLookup_dictSet_ne _ _ _ _ h1]
        rfl
    rcases hsh2 with rfl | ⟨j, rfl⟩
    · exact hp1
    · rw [jLookup_dictSet_ne _ _ _ _ h3]
      exact hp1
  refine ⟨⟨hwild, ?_, ?_⟩, ?_, ?_, ?_, ?_, ?_⟩
  · rw [hmval, jLookup_dictSet_ne _ _ _ _ (by decide)]
    exact jLookup_dictSet_self _ _ _
  · rw [hmval]
    exact jLookup_dictSet_self _ _ _
  · intro hNone
    rw [hwild, hNone]
    rfl
  · intro b hb
    rw [hwild, hb]
    cases b <;> rfl
  · intro hGH
    obtain ⟨p1, _, hsh2, hGH1, _⟩ := usdaListProps_shape fields p2 hp2
    have hp1nil : p1 = [] := hGH1 hGH
    subst hp1nil
    have hp2gh : jLookup p2 "growth_habits" = none ∧
        jLookup p2 "growth_habit_primary" = none := by
      rcases hsh2 with rfl | ⟨j, rfl⟩
      · exact ⟨rfl, rfl⟩
      · constructor <;> rw [jLookup_dictSet_ne _ _ _ _ (by decide)] <;> rfl
    constructor <;>
      rw [hflag_ne _ (by decide) (by decide) (by decide),
        usdaAncProps_lookup fields p5 p6 _ hp6 (by decide) (by decide) (by decide)
          (by decide) (by decide) (by decide) (by decide),
        usdaScalarProps_lookup fields p2 p5 _ hp5 (by decide) (by decide) (by decide)]
    · exact hp2gh.1
    · exact hp2gh.2
  · intro hDur
    obtain ⟨p1, hsh1, _, _, hDur1⟩ := usdaListProps_shape fields p2 hp2
    have hp2d : jLookup p2 "duration" = none := by
      rw [hDur1 hDur]
      rcases hsh1 with rfl | ⟨j, h0, rfl⟩
      · rfl
      · rw [jLookup_dictSet_ne _ _ _ _ (by decide),
          jLookup_dictSet_ne _ _ _ _ (by decide)]
        rfl
    rw [hflag_ne _ (by decide) (by decide) (by decide),
      usdaAncProps_lookup fields p5 p6 _ hp6 (by decide) (by decide) (by decide)
        (by decide) (by decide) (by decide) (by decide),
      usdaScalarProps_lookup fields p2 p5 _ hp5 (by decide) (by decide) (by decide)]
    exact hp2d
  · intro hAnc
    have hp65 : p6 = p5 := usdaAncProps_id fields p5 p6 hAnc hp6
    subst hp65
    refine ⟨?_, ?_, ?_, ?_, ?_, ?_, ?_⟩ <;>
      rw [hflag_ne _ (by decide) (by decide) (by decide),
        usdaScalarProps_lookup fields p2 p6 _ hp5 (by decide) (by decide) (by decide)] <;>
      exact hp2none _ (by decide) (by decide) (by decide)

/-- Witness for C8: a payload with `HasWildlife: true` and no list or
ancestor data yields string-boolean flags and no list/ancestor fields. -/
theorem C8_usda_flags_witness :
    jLookup [("has_wildlife_value", Json.str "True"),
        ("has_pollinator_value", Json.str "False"),
        ("has_wetland_data", Json.str "False")] "has_wildlife_value" =
      some (.str (if true then "True" else "False")) ∧
    jLookup [("has_wildlife_value", Json.str "True"),
        ("has_pollinator_value", Json.str "False"),
        ("has_wetland_data", Json.str "False")] "growth_habits" = none := by
  have h := C8_usda_flags_amended [("HasWildlife", .bool true)]
    [("has_wildlife_value", Json.str "True"),
     ("has_pollinator_value", Json.str "False"),
     ("has_wetland_data", Json.str "False")] rfl
  exact ⟨h.2.2.1 true rfl, (h.2.2.2.1 rfl).1⟩

/-- Every field the USDA adapter emits is in its key inventory. -/
theorem usda_keys_none (res : FetchRes) (m : PropMap) (k : String)
    (hk : k ∉ usdaKeyList) (hm : fetch_usda_profile res = .ok m) :
    jLookup m k = none := by
  simp only [usdaKeyList, List.mem_cons, List.not_mem_nil, or_false, not_or] at hk
  obtain ⟨k1, k2, k3, k4, k5, k6, k7, k8, k9, k10, k11, k12, k13, k14, k15, k16⟩ := hk
  match res with
  | none =>
    cases hm
    rfl
  | some none =>
    cases hm
    rfl
  | some (some data) =>
    have hm' : usdaListProps data >>= (fun p2 =>
        usdaScalarProps data p2 >>= fun p5 =>
        usdaAncProps data p5 >>= fun p6 =>
        usdaFlagProps data p6) = .ok m := hm
    match data with
    | .null => simp [usdaListProps, Json.get?, Bind.bind, Except.bind] at hm'
    | .bool b => simp [usdaListProps, Json.get?, Bind.bind, Except.bind] at hm'
    | .num n => simp [usdaListProps, Json.get?, Bind.bind, Except.bind] at hm'
    | .str s => simp [usdaListProps, Json.get?, Bind.bind, Except.bind] at hm'
    | .arr xs => simp [usdaListProps, Json.get?, Bind.bind, Except.bind] at hm'
    | .obj fields =>
      rcases except_bind_ok _ _ _ hm' with ⟨p2, hp2, h2⟩
      rcases except_bind_ok _ _ _ h2 with ⟨p5, hp5, h5⟩
      rcases except_bind_ok _ _ _ h5 with ⟨p6, hp6, h6⟩
      rw [usdaFlagProps_eq] at h6
      have hmval : m = dictSet (dictSet (dictSet p6 "has_wildlife_value"
          (.str (pyStr (jGetD (jLookup fields "HasWildlife") (.bool false)))))
          "has_pollinator_value"
          (.str (pyStr (jGetD (jLookup fields "HasPollinator") (.bool false)))))
          "has_wetland_data"
          (.str (pyStr (jGetD (jLookup fields "HasWetlandData") (.bool false)))) := by
        cases h6
        rfl
      rw [hmval, jLookup_dictSet_ne _ _ _ _ k16, jLookup_dictSet_ne _ _ _ _ k15,
        jLookup_dictSet_ne _ _ _ _ k14,
        usdaAncProps_lookup fields p5 p6 _ hp6 k7 k8 k9 k10 k11 k12 k13,
        usdaScalarProps_lookup fields p2 p5 _ hp5 k4 k5 k6]
      obtain ⟨p1, hsh1, hsh2, _, _⟩ := usdaListProps_shape fields p2 hp2
      have hp1 : jLookup p1 k = none := by
        rcases hsh1 with rfl | ⟨j, h0, rfl⟩
        · rfl
        · rw [jLookup_dictSet_ne _ _ _ _ k2, jLookup_dictSet_ne _ _ _ _ k1]
          rfl
      rcases hsh2 with rfl | ⟨j, rfl⟩
      · exact hp1
      · rw [jLookup_dictSet_ne _ _ _ _ k3]
        exact hp1

/-- The field-projection loop of the GBIF taxonomy adapter touches only the
(possibly `gbif_`-prefixed) names of the fields it is given. -/
theorem gbifFieldLoop_lookup (first : Json) (k : String) :
    ∀ (fl : List String) (props p' : PropMap),
      gbifFieldLoop first fl props = .ok p' →
      (∀ f ∈ fl, k ≠ (if f = "class" ∨ f = "order" then "gbif_" ++ f else f)) →
      jLookup p' k = jLookup props k := by
  intro fl
  induction fl with
  | nil =>
    intro props p' h _
    cases h
    rfl
  | cons f rest ih =>
    intro props p' h hne
    unfold gbifFieldLoop at h
    rcases except_bind_ok _ _ _ h with ⟨v, _, h⟩
    rw [ih _ _ h (fun g hg => hne g (List.mem_cons_of_mem f hg))]
    rcases v with _ | jv
    · rfl
    · by_cases ht : truthy jv
      · simp only [ht, if_true, ite_true]
        rw [jLookup_dictSet_ne _ _ _ _ (hne f (List.mem_cons_self f rest))]
      · simp only [ht, Bool.false_eq_true, if_false]

/-- Every field the GBIF taxonomy adapter emits is in its key inventory. -/
theorem gbifTax_keys_none (name : String) (res : FetchRes) (k : String)
    (hk : k ∉ gbifTaxKeyList) :
    jLookup (fetch_gbif_taxonomy name res) k = none := by
  simp only [gbifTaxKeyList, List.mem_cons, List.not_mem_nil, or_false, not_or] at hk
  obtain ⟨k1, k2, k3, k4, k5, k6, k7, k8⟩ := hk
  unfold fetch_gbif_taxonomy
  match res with
  | none => rfl
  | some body =>
    cases hcore : gbifTaxCore body with
    | error e =>
      show jLookup (match gbifTaxCore body with
        | Except.ok m => m
        | Except.error _ => ([] : PropMap)) k = none
      rw [hcore]
      rfl
    | ok m =>
      show jLookup (match gbifTaxCore body with
        | Except.ok m => m
        | Except.error _ => ([] : PropMap)) k = none
      rw [hcore]
      show jLookup m k = none
      match body with
      | none =>
        simp [gbifTaxCore, Bind.bind, Except.bind] at hcore
      | some j =>
        have hcore' : (Json.get? j "results" >>= fun ro =>
            if ¬ truthy (jOrD ro (.arr [])) then pure [] else
              (pySubscript0 (jOrD ro (.arr [])) >>= fun first =>
               gbifFieldLoop first
                 ["kingdom", "phylum", "class", "order", "family", "genus",
                  "species"] [] >>= fun props =>
               Json.get? first "vernacularName" >>= fun vn =>
               pure (match vn with
                 | some jv =>
                   if truthy jv then dictSet props "vernacular_name" jv else props
                 | none => props))) = .ok m := hcore
        rcases except_bind_ok _ _ _ hcore' with ⟨ro, _, hc⟩
        by_cases ht : truthy (jOrD ro (.arr []))
        · rw [if_neg (by simpa using ht)] at hc
          rcases except_bind_ok _ _ _ hc with ⟨first, _, hc⟩
          rcases except_bind_ok _ _ _ hc with ⟨props, hloop, hc⟩
          rcases except_bind_ok _ _ _ hc with ⟨vn, _, hc⟩
          have hprops : jLookup props k = none := by
            rw [gbifFieldLoop_lookup first k _ [] props hloop (by
              intro f hf
              fin_cases hf <;> simp <;> assumption)]
            rfl
          rcases vn with _ | jv
          · cases hc
            exact hprops
          · by_cases htv : truthy jv
            · simp only [htv, if_true, ite_true] at hc
              cases hc
              rw [jLookup_dictSet_ne _ _ _ _ k8]
              exact hprops
            · simp only [htv, Bool.false_eq_true, if_false] at hc
              cases hc
              exact hprops
        · rw [if_pos (by simpa using ht)] at hc
          cases hc
          rfl

/-- Every field the Wikipedia adapter emits is in its key inventory. -/
theorem wiki_keys_none (name : String) (res : FetchRes) (m : PropMap)
    (k : String) (h1 : k ≠ "wiki_summary") (h2 : k ≠ "height_m")
    (hm : fetch_wikipedia_summary name res = .ok m) : jLookup m k = none := by
  have hm0 : wikiSummaryCore res = .ok m := by
    unfold fetch_wikipedia_summary at hm
    cases hp : pySplitWs name with
    | nil =>
      simp only [hp] at hm
      simp [Bind.bind, Except.bind] at hm
    | cons p ps =>
      simp only [hp] at hm
      split at hm <;> exact hm
  cases res with
  | none =>
    cases hm0
    rfl
  | some body =>
    unfold wikiSummaryCore at hm0
    rcases except_bind_ok _ _ _ hm0 with ⟨data, _, h⟩
    rcases except_bind_ok _ _ _ h with ⟨ty, _, h⟩
    by_cases hd : isStrEq ty "disambiguation"
    · rw [if_pos (by simpa using hd)] at h
      cases h
      rfl
    · rw [if_neg (by simpa using hd)] at h
      rcases except_bind_ok _ _ _ h with ⟨eo, _, h⟩
      by_cases htr : truthy (jGetD eo (.str ""))
      · rw [if_pos (by simpa using htr)] at h
        rcases except_bind_ok _ _ _ h with ⟨n, _, h⟩
        by_cases h50 : n > 50
        · rw [if_pos h50] at h
          rcases except_bind_ok _ _ _ h with ⟨capped, _, h⟩
          rcases except_bind_ok _ _ _ h with ⟨p1, hp1, h⟩
          cases hp1
          rcases hext : jGetD eo (.str "") with _ | b | nn | sv | xs | fs <;>
            rw [hext] at h <;>
            try simp [Bind.bind, Except.bind, pure, Except.pure] at h
          cases hsr : searchHeight sv <;> rw [hsr] at h <;> cases h
          · rw [jLookup_dictSet_ne _ _ _ _ h1]
            rfl
          · rw [jLookup_dictSet_ne _ _ _ _ h2, jLookup_dictSet_ne _ _ _ _ h1]
            rfl
        · rw [if_neg h50] at h
          rcases except_bind_ok _ _ _ h with ⟨p1, hp1, h⟩
          cases hp1
          rcases hext : jGetD eo (.str "") with _ | b | nn | sv | xs | fs <;>
            rw [hext] at h <;>
            try simp [Bind.bind, Except.bind, pure, Except.pure] at h
          cases hsr : searchHeight sv <;> rw [hsr] at h <;> cases h
          · rfl
          · rw [jLookup_dictSet_ne _ _ _ _ h2]
            rfl
      · rw [if_neg (by simpa using htr)] at h
        rcases except_bind_ok _ _ _ h with ⟨p1, hp1, h⟩
        cases hp1
        rcases hext : jGetD eo (.str "") with _ | b | nn | sv | xs | fs <;>
          rw [hext] at h <;>
          try simp [Bind.bind, Except.bind, pure, Except.pure] at h
        cases hsr : searchHeight sv <;> rw [hsr] at h <;> cases h
        · rfl
        · rw [jLookup_dictSet_ne _ _ _ _ h2]
          rfl

/-- Every field the descriptions adapter emits is in its key inventory. -/
theorem desc_keys_none (res : FetchRes) (m : PropMap) (k : String)
    (h1 : k ≠ "habitat_notes") (h2 : k ≠ "gbif_habit")
    (hm : fetch_gbif_descriptions res = .ok m) : jLookup m k = none := by
  match res with
  | none =>
    cases hm
    rfl
  | some body =>
    unfold fetch_gbif_descriptions at hm
    rcases except_bind_ok _ _ _ hm with ⟨data, _, h⟩
    rcases except_bind_ok _ _ _ h with ⟨ro, _, h⟩
    rcases except_bind_ok _ _ _ h with ⟨items, _, h⟩
    rcases except_bind_ok _ _ _ h with ⟨lists, _, h⟩
    cases h
    rcases lists with ⟨l1, l2⟩
    cases l2 <;> cases l1 <;>
      simp only [] <;>
      first
        | rfl
        | (rw [jLookup_dictSet_ne _ _ _ _ h1]; rfl)
        | (rw [jLookup_dictSet_ne _ _ _ _ h2]; first
            | rfl
            | (rw [jLookup_dictSet_ne _ _ _ _ h1]; rfl))

/-- Every field the phenology adapter emits is in its key inventory. -/
theorem pheno_keys_none (res : FetchRes) (m : PropMap) (k : String)
    (h1 : k ≠ "peak_observation_months") (h2 : k ≠ "active_season")
    (hm : fetch_gbif_phenology res = .ok m) : jLookup m k = none := by
  match res with
  | none =>
    cases hm
    rfl
  | some body =>
    unfold fetch_gbif_phenology at hm
    rcases except_bind_ok _ _ _ hm with ⟨data, _, h⟩
    rcases except_bind_ok _ _ _ h with ⟨fo, _, h⟩
    rcases except_bind_ok _ _ _ h with ⟨facetList, _, h⟩
    rcases except_bind_ok _ _ _ h with ⟨mc, _, h⟩
    match mc with
    | [] =>
      cases h
      rfl
    | c :: cs =>
      rcases except_bind_ok _ _ _ h with ⟨items, _, h⟩
      cases h
      split <;> split <;>
        first
          | rfl
          | (rw [jLookup_dictSet_ne _ _ _ _ h1]; rfl)
          | (rw [jLookup_dictSet_ne _ _ _ _ h2]; first
              | rfl
              | (rw [jLookup_dictSet_ne _ _ _ _ h1]; rfl))

/-- The distributions loop adds at most an `iucn_threat_status` field. -/
theorem distLoop_lookup (k : String) (hk : k ≠ "iucn_threat_status") :
    ∀ (l : List Json) (props : PropMap) (states : List Json) (out : PropMap × List Json),
      distLoop l props states = .ok out → jLookup out.1 k = jLookup props k := by
  intro l
  induction l with
  | nil =>
    intro props states out h
    cases h
    rfl
  | cons dist rest ih =>
    intro props states out h
    unfold distLoop at h
    rcases except_bind_ok _ _ _ h with ⟨threat, _, h⟩
    rcases except_bind_ok _ _ _ h with ⟨lo, _, h⟩
    rcases except_bind_ok _ _ _ h with ⟨loc, _, h⟩
    rcases except_bind_ok _ _ _ h with ⟨starts, _, h⟩
    rw [ih _ _ _ h]
    rcases threat with _ | jv
    · rfl
    · show jLookup (if truthy jv = true ∧
          (jLookup props "iucn_threat_status").isNone = true then
          dictSet props "iucn_threat_status" jv else props) k = jLookup props k
      split
      · rw [jLookup_dictSet_ne _ _ _ _ hk]
      · rfl

/-- Every field the distributions adapter emits is in its key inventory. -/
theorem dist_keys_none (res : FetchRes) (m : PropMap) (k : String)
    (h1 : k ≠ "iucn_threat_status") (h2 : k ≠ "us_states")
    (hm : fetch_gbif_distributions res = .ok m) : jLookup m k = none := by
  match res with
  | none =>
    cases hm
    rfl
  | some body =>
    unfold fetch_gbif_distributions at hm
    rcases except_bind_ok _ _ _ hm with ⟨data, _, h⟩
    rcases except_bind_ok _ _ _ h with ⟨ro, _, h⟩
    rcases except_bind_ok _ _ _ h with ⟨items, _, h⟩
    rcases except_bind_ok _ _ _ h with ⟨pair, hloop, h⟩
    have hbase : jLookup pair.1 k = none := by
      rw [distLoop_lookup k h1 items [] [] pair hloop]
      rfl
    rcases pair with ⟨p1, states⟩
    match states with
    | [] =>
      cases h
      exact hbase
    | st :: sts =>
      rcases except_bind_ok _ _ _ h with ⟨strs, _, h⟩
      cases h
      rw [jLookup_dictSet_ne _ _ _ _ h2]
      exact hbase


/-- C7 (amended): the `gbif_` renaming does prevent `class`/`order`
collisions, but the USDA and GBIF taxonomy adapters both emit `kingdom`,
`family` and `genus`: any field name both can emit lies in that
three-element set, while every other pair of adapters emits disjoint field
name sets (the Wikimedia Commons adapter emits no property fields at
all). -/
theorem C7_field_ownership_amended
    (resU resW resD resP resS resG : FetchRes) (nameG nameW : String)
    (mU mW mD mP mS mG : PropMap)
    (hU : fetch_usda_profile resU = .ok mU)
    (hG : fetch_gbif_taxonomy nameG resG = mG)
    (hW : fetch_wikipedia_summary nameW resW = .ok mW)
    (hD : fetch_gbif_descriptions resD = .ok mD)
    (hP : fetch_gbif_phenology resP = .ok mP)
    (hS : fetch_gbif_distributions resS = .ok mS) :
    ∀ k : String,
      (jLookup mU k ≠ none → jLookup mG k ≠ none →
        k ∈ (["kingdom", "family", "genus"] : List String)) ∧
      (jLookup mU k ≠ none → jLookup mW k = none) ∧
      (jLookup mU k ≠ none → jLookup mD k = none) ∧
      (jLookup mU k ≠ none → jLookup mP k = none) ∧
      (jLookup mU k ≠ none → jLookup mS k = none) ∧
      (jLookup mG k ≠ none → jLookup mW k = none) ∧
      (jLookup mG k ≠ none → jLookup mD k = none) ∧
      (jLookup mG k ≠ none → jLookup mP k = none) ∧
      (jLookup mG k ≠ none → jLookup mS k = none) ∧
      (jLookup mW k ≠ none → jLookup mD k = none) ∧
      (jLookup mW k ≠ none → jLookup mP k = none) ∧
      (jLookup mW k ≠ none → jLookup mS k = none) ∧
      (jLookup mD k ≠ none → jLookup mP k = none) ∧
      (jLookup mD k ≠ none → jLookup mS k = none) ∧
      (jLookup mP k ≠ none → jLookup mS k = none) := by
  intro k
  have memU : jLookup mU k ≠ none → k ∈ usdaKeyList := by
    intro hne
    by_contra hk
    exact hne (usda_keys_none resU mU k hk hU)
  have memG : jLookup mG k ≠ none → k ∈ gbifTaxKeyList := by
    intro hne
    by_contra hk
    exact hne (hG ▸ gbifTax_keys_none nameG resG k hk)
  have memW : jLookup mW k ≠ none → k ∈ wikiKeyList := by
    intro hne
    by_contra hk
    simp only [wikiKeyList, List.mem_cons, List.not_mem_nil, or_false,
      not_or] at hk
    exact hne (wiki_keys_none nameW resW mW k hk.1 hk.2 hW)
  have memD : jLookup mD k ≠ none → k ∈ descKeyList := by
    intro hne
    by_contra hk
    simp only [descKeyList, List.mem_cons, List.not_mem_nil, or_false,
      not_or] at hk
    exact hne (desc_keys_none resD mD k hk.1 hk.2 hD)
  have memP : jLookup mP k ≠ none → k ∈ phenoKeyList := by
    intro hne
    by_contra hk
    simp only [phenoKeyList, List.mem_cons, List.not_mem_nil, or_false,
      not_or] at hk
    exact hne (pheno_keys_none resP mP k hk.1 hk.2 hP)
  have memS : jLookup mS k ≠ none → k ∈ distKeyList := by
    intro hne
    by_contra hk
    simp only [distKeyList, List.mem_cons, List.not_mem_nil, or_false,
      not_or] at hk
    exact hne (dist_keys_none resS mS k hk.1 hk.2 hS)
  refine ⟨?_, ?_, ?_, ?_, ?_, ?_, ?_, ?_, ?_, ?_, ?_, ?_, ?_, ?_, ?_⟩
  · intro h1 h2
    exact (by decide : ∀ a ∈ usdaKeyList, a ∈ gbifTaxKeyList →
      a ∈ (["kingdom", "family", "genus"] : List String)) _ (memU h1) (memG h2)
  · intro h1
    by_contra h2
    exact (by decide : ∀ a ∈ usdaKeyList, a ∉ wikiKeyList) _ (memU h1) (memW h2)
  · intro h1
    by_contra h2
    exact (by decide : ∀ a ∈ usdaKeyList, a ∉ descKeyList) _ (memU h1) (memD h2)
  · intro h1
    by_contra h2
    exact (by decide : ∀ a ∈ usdaKeyList, a ∉ phenoKeyList) _ (memU h1) (memP h2)
  · intro h1
    by_contra h2
    exact (by decide : ∀ a ∈ usdaKeyList, a ∉ distKeyList) _ (memU h1) (memS h2)
  · intro h1
    by_contra h2
    exact (by decide : ∀ a ∈ gbifTaxKeyList, a ∉ wikiKeyList) _ (memG h1) (memW h2)
  · intro h1
    by_contra h2
    exact (by decide : ∀ a ∈ gbifTaxKeyList, a ∉ descKeyList) _ (memG h1) (memD h2)
  · intro h1
    by_contra h2
    exact (by decide : ∀ a ∈ gbifTaxKeyList, a ∉ phenoKeyList) _ (memG h1) (memP h2)
  · intro h1
    by_contra h2
    exact (by decide : ∀ a ∈ gbifTaxKeyList, a ∉ distKeyList) _ (memG h1) (memS h2)
  · intro h1
    by_contra h2
    exact (by decide : ∀ a ∈ wikiKeyList, a ∉ descKeyList) _ (memW h1) (memD h2)
  · intro h1
    by_contra h2
    exact (by decide : ∀ a ∈ wikiKeyList, a ∉ phenoKeyList) _ (memW h1) (memP h2)
  · intro h1
    by_contra h2
    exact (by decide : ∀ a ∈ wikiKeyList, a ∉ distKeyList) _ (memW h1) (memS h2)
  · intro h1
    by_contra h2
    exact (by decide : ∀ a ∈ descKeyList, a ∉ phenoKeyList) _ (memD h1) (memP h2)
  · intro h1
    by_contra h2
    exact (by decide : ∀ a ∈ descKeyList, a ∉ distKeyList) _ (memD h1) (memS h2)
  · intro h1
    by_contra h2
    exact (by decide : ∀ a ∈ phenoKeyList, a ∉ distKeyList) _ (memP h1) (memS h2)

/-- Witness for C7 at concrete adapter runs: `family`, emitted by both the
USDA and GBIF taxonomy adapters, lies in the shared three-field set, and a
USDA field is absent from the Wikipedia adapter output. -/
theorem C7_field_ownership_witness :
    ("family" ∈ (["kingdom", "family", "genus"] : List String)) ∧
    jLookup [("height_m", Json.str "5 m tall")] "has_wildlife_value" = none := by
  have h := C7_field_ownership_amended
    (some (some usdaFamilyInput)) (some (some shortExtractInput))
    (some (some habitatEcologyInput)) (some (some phenoInput))
    (some (some distInput)) (some (some gbifFamilyInput))
    "Acer rubrum" "Quercus alba"
    [("family", .str "ACERA"), ("has_wildlife_value", .str "False"),
     ("has_pollinator_value", .str "False"), ("has_wetland_data", .str "False")]
    [("height_m", .str "5 m tall")] []
    [("peak_observation_months", .str "June, September, March"),
     ("active_season", .str "June, September")]
    [("iucn_threat_status", .str "LC"), ("us_states", .str "Virginia")]
    [("family", .str "Sapindaceae")]
    rfl rfl rfl rfl rfl rfl
  constructor
  · exact (h "family").1 (by simp [jLookup]) (by simp [jLookup])
  · exact (h "has_wildlife_value").2.1 (by simp [jLookup])

end PlantCat
